import Mathlib

/-!
Shallow embedding of the experiment bot (`src/tg_bot.py`) and of the export
utility (`src/read_db.py`).

The SQLite tables become lists of row structures inside a `Db` record; each
database utility of the Python source becomes a pure function `Db → Db`
(one function application = one committed SQLite transaction).  Telegram
message sends become `Reply` labels, and `context.user_data` becomes the
`Session` record.  Randomness (`random.choice`, `random.shuffle`) is passed
in as explicit parameters, constrained in the theorems exactly as the
`random` module guarantees (a choice from `VIDEO_CONDITIONS`, a permutation
of the shuffled list).
-/

/-- A row of the `users` table. -/
structure UserRow where
  userId : Nat
  tgUsername : String
  firstName : String
deriving Repr, DecidableEq

/-- A row of the `participants` table (`tg_bot.py`, `create_schema_and_fill`).
`completed` is stored as INTEGER 0/1 in SQLite and written only via
`1 if completed else 0`; we model it as `Bool`.  `created_at` defaults to
CURRENT_TIMESTAMP, an opaque string for this model. -/
structure Participant where
  userId : Nat
  tgUsername : String
  firstName : String
  participantName : Option String
  gender : Option String
  age : Option Int
  condition : Option String
  currentVideoIdx : Nat
  totalVideos : Nat
  completed : Bool
  createdAt : String
deriving Repr, DecidableEq

/-- A row of the `video_sequence` table. -/
structure SeqRow where
  userId : Nat
  position : Nat
  condition : String
  scenario : String
  fileId : String
deriving Repr, DecidableEq

/-- A row of the `answers` table. -/
structure AnsRow where
  userId : Nat
  position : Nat
  scenario : String
  fileId : String
  description : Option String
  advBehavior : Option String
  advChoice : Option String
  scenarioRating : Option Int
deriving Repr, DecidableEq

/-- The whole SQLite database `ratings.db`. -/
structure Db where
  users : List UserRow
  participants : List Participant
  videoSeq : List SeqRow
  answers : List AnsRow
deriving Repr, DecidableEq

/-- The dict returned by `get_video_by_position`. -/
structure VideoInfo where
  condition : String
  scenario : String
  fileId : String
deriving Repr, DecidableEq

/-- Models `context.user_data`: the ephemeral per-chat session dictionary.  The three
keys the source uses are `stage`, `participant_name` and `gender`. -/
structure Session where
  stage : Option String
  participantName : Option String
  gender : Option String
deriving Repr, DecidableEq

/-- Models `context.user_data.clear()`. -/
def sessionClear : Session := ⟨none, none, none⟩

/-- Models `update.effective_user`. -/
structure TgUser where
  id : Nat
  username : Option String
  firstName : Option String
deriving Repr, DecidableEq

-- ---------------------------------------------------------------------------
-- Experiment constants (`tg_bot.py` lines 66-105)
-- ---------------------------------------------------------------------------

def SCENARIOS : List String := ["Пицца", "Наперстки", "Детали", "Шахматы"]

def VIDEO_CONDITIONS : List String := ["без", "с"]

/-- Python dict lookup `d[k]` / `k in d`, modelled over association lists. -/
def dictGet {α : Type} (d : List (String × α)) (k : String) : Option α :=
  (d.find? (fun e => e.1 == k)).map (·.2)

def VIDEO_FILES : List (String × List (String × String)) :=
  [("без",
    [("Пицца",    "BAACAgIAAxkBAAMDaR3tILxQxDadmZUPnNfLMYKDklYAAuKGAAK3mfBIUqHZvFT5t4k2BA"),
     ("Наперстки", "BAACAgIAAxkBAAMHaR3tTeFefOgTqLVzPGWVfq0HqMYAAuWGAAK3mfBInbE1O9rwros2BA"),
     ("Детали",   "BAACAgIAAxkBAAMLaR3tr3EhNtwKcDD4G-MQ6CSg12wAAumGAAK3mfBIhZdSRIOeY9Y2BA"),
     ("Шахматы",  "BAACAgIAAxkBAAMPaR3t020V9VOwPFXHjjcMSLTB1C0AAuuGAAK3mfBIaIB8oId19Wc2BA")]),
   ("с",
    [("Пицца",    "BAACAgIAAxkBAAMFaR3tP22-guoJN43uoEp3wNG8O7IAAuOGAAK3mfBIzJd2fp1Quv42BA"),
     ("Наперстки", "BAACAgIAAxkBAAMJaR3tl8kAAYky84H0z-zVin07co-0AALohgACt5nwSPu4xsh4TUauNgQ"),
     ("Детали",   "BAACAgIAAxkBAAMNaR3twWb_7p9gokCji027ULfVxrsAAuqGAAK3mfBIbLKHzk9zTIU2BA"),
     ("Шахматы",  "BAACAgIAAxkBAAMRaR3t7KdwvysGkOElyJnc_lgQitQAAu2GAAK3mfBImFgME8KSjbs2BA")])]

-- ---------------------------------------------------------------------------
-- Database utilities (`tg_bot.py` lines 192-432)
-- ---------------------------------------------------------------------------

/-- Models `ensure_user`: upsert into `users` (update `tg_username`/`first_name` on
conflict, insert otherwise; a fresh SQLite row is appended in rowid order). -/
def ensure_user (userId : Nat) (username firstName : String) (db : Db) : Db :=
  if db.users.any (fun u => u.userId == userId) then
    let upd := fun (u : UserRow) =>
      if u.userId == userId then { u with tgUsername := username, firstName := firstName } else u
    { db with users := db.users.map upd }
  else
    { db with users := db.users ++ [⟨userId, username, firstName⟩] }

/-- Models `get_participant`: point lookup by primary key `user_id`. -/
def get_participant (db : Db) (userId : Nat) : Option Participant :=
  db.participants.find? (fun p => p.userId == userId)

/-- Models `UPDATE participants SET ... WHERE user_id = ?`, as a row transformer. -/
def updParticipant (userId : Nat) (f : Participant → Participant) (db : Db) : Db :=
  let upd := fun (p : Participant) => if p.userId == userId then f p else p
  { db with participants := db.participants.map upd }

/-- The row created by `INSERT INTO participants (user_id, tg_username,
first_name)`: the remaining columns take their schema defaults. -/
def freshParticipant (userId : Nat) (tgUsername firstName : String) : Participant :=
  { userId := userId, tgUsername := tgUsername, firstName := firstName,
    participantName := none, gender := none, age := none, condition := none,
    currentVideoIdx := 0, totalVideos := 4, completed := false,
    createdAt := "CURRENT_TIMESTAMP" }

/-- One `if field is not None: UPDATE participants SET field = ?` block. -/
def setOpt {α : Type} (userId : Nat) (o : Option α)
    (set : α → Participant → Participant) (db : Db) : Db :=
  match o with
  | some v => updParticipant userId (set v) db
  | none => db

/-- Models `create_participant`: insert-or-update of `tg_username`/`first_name`,
then one conditional per-field UPDATE for every argument that is not None.
All statements share one commit. -/
def create_participant (userId : Nat) (tgUsername firstName : Option String)
    (participantName gender : Option String) (age : Option Int)
    (condition : Option String) (totalVideos : Option Nat) (db : Db) : Db :=
  let base :=
    if db.participants.any (fun p => p.userId == userId) then
      updParticipant userId
        (fun p => { p with tgUsername := tgUsername.getD "",
                           firstName := firstName.getD "" }) db
    else
      { db with participants :=
          db.participants ++ [freshParticipant userId (tgUsername.getD "") (firstName.getD "")] }
  let d1 := setOpt userId participantName (fun v p => { p with participantName := some v }) base
  let d2 := setOpt userId gender (fun v p => { p with gender := some v }) d1
  let d3 := setOpt userId age (fun v p => { p with age := some v }) d2
  let d4 := setOpt userId condition (fun v p => { p with condition := some v }) d3
  setOpt userId totalVideos (fun v p => { p with totalVideos := v }) d4

/-- Models `update_participant_progress`: early return if both arguments are None,
otherwise a single UPDATE statement setting the passed fields together. -/
def update_participant_progress (userId : Nat) (currentVideoIdx : Option Nat)
    (completed : Option Bool) (db : Db) : Db :=
  if currentVideoIdx.isNone && completed.isNone then db
  else
    updParticipant userId
      (fun p => { p with currentVideoIdx := currentVideoIdx.getD p.currentVideoIdx,
                         completed := completed.getD p.completed }) db

/-- The loop of `create_video_sequence_for_participant` building
`videos = [(scenario, file_id)]`, raising on a missing `file_id`. -/
def videosFor (files : List (String × String)) :
    List String → Except String (List (String × String))
  | [] => Except.ok []
  | sc :: rest =>
    match dictGet files sc with
    | none => Except.error ("не задан file_id для сценария " ++ sc)
    | some fid => (videosFor files rest).map (fun vs => (sc, fid) :: vs)

/-- Models `create_video_sequence_for_participant`: validate condition and media
references (raising ValueError before any store access), shuffle, then in
one transaction DELETE the participant's old rows and INSERT one row per
position `0..len-1` in shuffled order.  `random.shuffle` is passed in as the
`shuffle` parameter. -/
def create_video_sequence_for_participant (userId : Nat) (condition : String)
    (shuffle : List (String × String) → List (String × String)) (db : Db) :
    Except String Db :=
  match dictGet VIDEO_FILES condition with
  | none => Except.error ("Неизвестное условие: " ++ condition)
  | some files =>
    match videosFor files SCENARIOS with
    | Except.error e => Except.error e
    | Except.ok videos =>
      let shuffled := shuffle videos
      let newRows : List SeqRow :=
        shuffled.enum.map (fun pv => ⟨userId, pv.1, condition, pv.2.1, pv.2.2⟩)
      let kept := db.videoSeq.filter (fun v => !(v.userId == userId))
      Except.ok { db with videoSeq := kept ++ newRows }

/-- Models `get_video_by_position`: point lookup by `(user_id, position)`. -/
def get_video_by_position (db : Db) (userId position : Nat) : Option VideoInfo :=
  (db.videoSeq.find? (fun v => v.userId == userId && v.position == position)).map
    (fun v => ⟨v.condition, v.scenario, v.fileId⟩)

/-- Models `get_answer`: point lookup by `(user_id, position)`.  (The Python dict
omits the key columns; no caller reads them, so we return the row.) -/
def get_answer (db : Db) (userId position : Nat) : Option AnsRow :=
  db.answers.find? (fun a => a.userId == userId && a.position == position)

/-- The four admissible `field_name` values of `upsert_answer_field`, with
their typed payloads (TEXT for the three text fields, INTEGER for the
rating); any other name raises ValueError before any store access. -/
inductive FieldWrite
  | description (v : String)
  | adv_behavior (v : String)
  | adv_choice (v : String)
  | scenario_rating (v : Int)
deriving Repr, DecidableEq

def applyFieldWrite : FieldWrite → AnsRow → AnsRow
  | .description v, a => { a with description := some v }
  | .adv_behavior v, a => { a with advBehavior := some v }
  | .adv_choice v, a => { a with advChoice := some v }
  | .scenario_rating v, a => { a with scenarioRating := some v }

/-- Models `upsert_answer_field`: INSERT the `(user_id, position)` row lazily (on
conflict refresh `scenario`/`file_id`), then UPDATE the single named field;
one commit. -/
def upsert_answer_field (userId position : Nat) (scenario fileId : String)
    (fw : FieldWrite) (db : Db) : Db :=
  let refresh := fun (a : AnsRow) =>
    if a.userId == userId && a.position == position then
      { a with scenario := scenario, fileId := fileId } else a
  let base :=
    if db.answers.any (fun a => a.userId == userId && a.position == position) then
      { db with answers := db.answers.map refresh }
    else
      { db with answers := db.answers ++
          [⟨userId, position, scenario, fileId, none, none, none, none⟩] }
  let setf := fun (a : AnsRow) =>
    if a.userId == userId && a.position == position then applyFieldWrite fw a else a
  { base with answers := base.answers.map setf }

-- ---------------------------------------------------------------------------
-- Progress Resolver (`determine_next_stage`, lines 439-472)
-- ---------------------------------------------------------------------------

inductive Stage
  | no_participant
  | finished
  | expect_description
  | expect_adv_behavior
  | expect_adv_choice
  | expect_rating
deriving Repr, DecidableEq

/-- The string value stored into `context.user_data["stage"]`. -/
def Stage.toStr : Stage → String
  | .no_participant => "no_participant"
  | .finished => "finished"
  | .expect_description => "expect_description"
  | .expect_adv_behavior => "expect_adv_behavior"
  | .expect_adv_choice => "expect_adv_choice"
  | .expect_rating => "expect_rating"

/-- Models `determine_next_stage`: the Progress Resolver, translated branch for
branch from the source. -/
def determine_next_stage (db : Db) (userId : Nat) : Stage :=
  match get_participant db userId with
  | none => .no_participant
  | some p =>
    if p.completed then .finished
    else
      let idx := p.currentVideoIdx
      let total := p.totalVideos
      if total ≤ idx then .finished
      else
        match get_answer db userId idx with
        | none => .expect_description
        | some ans =>
          if ans.description.isNone then .expect_description
          else if ans.advBehavior.isNone then .expect_adv_behavior
          else if ans.advChoice.isNone then .expect_adv_choice
          else if ans.scenarioRating.isNone then .expect_rating
          else .expect_description

/-- Modelled from the spec, for comparison with `determine_next_stage`:
the fixed-order transition rule of §4.3, `resolve(participant,
answer_for_current_position) -> Stage`, exactly as the spec words it. -/
def resolveSpec (participant : Option Participant) (answerAtCurrent : Option AnsRow) :
    Stage :=
  match participant with
  | none => .no_participant
  | some p =>
    if p.completed then .finished
    else if p.totalVideos ≤ p.currentVideoIdx then .finished
    else
      match answerAtCurrent with
      | none => .expect_description
      | some a =>
        if a.description.isNone then .expect_description
        else if a.advBehavior.isNone then .expect_adv_behavior
        else if a.advChoice.isNone then .expect_adv_choice
        else if a.scenarioRating.isNone then .expect_rating
        else .expect_description

-- ---------------------------------------------------------------------------
-- Interaction Controller (`tg_bot.py` lines 475-963)
-- ---------------------------------------------------------------------------

/-- Labels for the outbound Telegram sends; each constructor stands for one
send site of the source. -/
inductive Reply
  | pressStart
  | askName
  | askGender
  | askAge
  | ageReprompt
  | genderAck (g : String)
  | intakeDone
  | resumeNotice
  | alreadyCompleted
  | sessionNotFound
  | videoInfoMissing
  | sendVideo (fileId : String) (idx total : Nat)
  | askDescription
  | askAdvBehavior
  | askAdvChoice
  | ratingQuestion (scenario : String)
  | chooseRatingButton
  | thanksNext
  | finalMessage (name : String)
  | stepError
  | unexpectedError
deriving Repr, DecidableEq

/-- Models `send_final_message`: `participant.get("participant_name") or default`
(Python `or` also replaces the empty string). -/
def finalName (p : Participant) : String :=
  let n := p.participantName.getD ""
  if n == "" then "ваше имя/псевдоним" else n

/-- Models `continue_experiment` (lines 475-540): reads state, re-derives the stage
with the Progress Resolver, caches it in `user_data["stage"]`, and emits the
prompt for that stage.  It never writes to the database. -/
def continue_experiment (userId : Nat) (s : Session) (db : Db) :
    Session × List Reply :=
  match get_participant db userId with
  | none => (sessionClear, [.sessionNotFound])
  | some p =>
    if p.completed then (sessionClear, [.finalMessage (finalName p)])
    else
      let idx := p.currentVideoIdx
      let total := p.totalVideos
      match get_video_by_position db userId idx with
      | none => (s, [.videoInfoMissing])
      | some v =>
        let stage := determine_next_stage db userId
        let s1 := { s with stage := some stage.toStr }
        match stage with
        | .expect_description => (s1, [.sendVideo v.fileId idx total, .askDescription])
        | .expect_adv_behavior => (s1, [.askAdvBehavior])
        | .expect_adv_choice => (s1, [.askAdvChoice])
        | .expect_rating => (s1, [.ratingQuestion v.scenario])
        | .finished => (sessionClear, [.finalMessage (finalName p)])
        | .no_participant => (sessionClear, [.stepError])

/-- Models `/start` (lines 593-668).  Python truthiness: a missing participant name
or gender is `None` or `""`. -/
def start (u : TgUser) (s : Session) (db : Db) : Session × Db × List Reply :=
  let db1 := ensure_user u.id (u.username.getD "") (u.firstName.getD "") db
  match get_participant db1 u.id with
  | some p =>
    if p.completed then
      (s, db1, [.alreadyCompleted, .finalMessage (finalName p)])
    else if p.participantName.getD "" == "" then
      ({ s with stage := some "ask_name" }, db1, [.askName])
    else if p.gender.getD "" == "" then
      ({ s with stage := some "ask_gender" }, db1, [.askGender])
    else if p.age.isNone then
      ({ s with stage := some "ask_age" }, db1, [.askAge])
    else
      let sr := continue_experiment u.id s db1
      (sr.1, db1, .resumeNotice :: sr.2)
  | none =>
    ({ sessionClear with stage := some "ask_name" }, db1, [.askName])

/-- Python `str.strip()`: drop leading and trailing whitespace.  (Defined
structurally over the character list so that it evaluates by kernel
reduction; `String.trim` is extensionally the same but is defined by
well-founded recursion.) -/
def pyStrip (s : String) : String :=
  ⟨((s.data.dropWhile Char.isWhitespace).reverse.dropWhile Char.isWhitespace).reverse⟩

def digitsValAux : List Char → Nat → Option Nat
  | [], acc => some acc
  | c :: rest, acc =>
    if c.isDigit then digitsValAux rest (acc * 10 + (c.toNat - 48)) else none

def digitsVal : List Char → Option Nat
  | [] => none
  | l => digitsValAux l 0

/-- Python `int(text)` on a stripped string: an optional sign followed by at
least one decimal digit; anything else raises ValueError (`none`). -/
def pyInt (s : String) : Option Int :=
  match s.data with
  | '-' :: rest => (digitsVal rest).map (fun n => -(n : Int))
  | '+' :: rest => (digitsVal rest).map (fun n => (n : Int))
  | l => (digitsVal l).map (fun n => (n : Int))

/-- Models `int(text)` followed by the range check of the `ask_age` branch; `none`
means the ValueError path (re-prompt). -/
def ageParse (text : String) : Option Int :=
  match pyInt text with
  | none => none
  | some a => if a ≤ 0 || 120 < a then none else some a

/-- Lines 736-779: the `ask_age` success branch — persist age with the
session's name and gender, then pick the condition, set the total, generate
the sequence and start the experiment.  `db1` is the store after the
unconditional upsert of lines 709-718. -/
def ht_age_ok (u : TgUser) (cond : String)
    (shuffle : List (String × String) → List (String × String))
    (s : Session) (db1 : Db) (age : Int) :
    Except (String × Db) (Session × Db × List Reply) :=
  let pname := pyStrip (s.participantName.getD "")
  let gender := pyStrip (s.gender.getD "")
  let db2 := create_participant u.id u.username u.firstName
    (some pname) (some gender) (some age) none none db1
  let db3 := create_participant u.id u.username u.firstName
    none none none (some cond) (some SCENARIOS.length) db2
  match create_video_sequence_for_participant u.id cond shuffle db3 with
  | Except.error e => Except.error (e, db3)
  | Except.ok db4 =>
    let s1 := { s with stage := none }
    let sr := continue_experiment u.id s1 db4
    Except.ok (sr.1, db4, Reply.intakeDone :: sr.2)

/-- Lines 782-862: the per-video answer block of `handle_text`.  `db1` is
the store after the unconditional upsert of lines 709-718. -/
def ht_video_block (u : TgUser) (stage text : String) (s : Session) (db1 : Db) :
    Session × Db × List Reply :=
  match get_participant db1 u.id with
  | none => (sessionClear, db1, [.sessionNotFound])
  | some p =>
    if p.completed then (sessionClear, db1, [.sessionNotFound])
    else
      let idx := p.currentVideoIdx
      match get_video_by_position db1 u.id idx with
      | none => (s, db1, [.videoInfoMissing])
      | some v =>
        if stage == "expect_description" then
          let db2 := upsert_answer_field u.id idx v.scenario v.fileId
            (.description text) db1
          ({ s with stage := some "expect_adv_behavior" }, db2, [.askAdvBehavior])
        else if stage == "expect_adv_behavior" then
          let db2 := upsert_answer_field u.id idx v.scenario v.fileId
            (.adv_behavior text) db1
          ({ s with stage := some "expect_adv_choice" }, db2, [.askAdvChoice])
        else if stage == "expect_adv_choice" then
          let db2 := upsert_answer_field u.id idx v.scenario v.fileId
            (.adv_choice text) db1
          let s1 := { s with stage := some "expect_rating" }
          let sr := continue_experiment u.id s1 db2
          (sr.1, db2, sr.2)
        else if stage == "expect_rating" then
          (s, db1, [.chooseRatingButton])
        else
          (sessionClear, db1, [.stepError])

/-- Models `handle_text` (lines 671-862).  `cond` stands for the draw
`random.choice(VIDEO_CONDITIONS)` and `shuffle` for `random.shuffle`.  A
raised exception (only `create_video_sequence_for_participant` can raise
here) propagates out of the handler with the database as committed so far:
we return it as `Except.error (message, db)`. -/
def handle_text (u : TgUser) (text0 : String) (cond : String)
    (shuffle : List (String × String) → List (String × String))
    (s : Session) (db : Db) :
    Except (String × Db) (Session × Db × List Reply) :=
  let text := pyStrip text0
  match s.stage with
  | none => Except.ok (s, db, [.pressStart])
  | some stage =>
    if stage == "ask_name" then
      let s1 := { s with participantName := some text, stage := some "ask_gender" }
      let db1 := create_participant u.id u.username u.firstName
        (some text) none none none none db
      Except.ok (s1, db1, [.askGender])
    else
      -- lines 709-718: unconditional upsert passing the raw text as
      -- participant_name, reached on every stage other than ask_name
      let db1 := create_participant u.id (some (u.username.getD ""))
        (some (u.firstName.getD "")) (some text) none none none none db
      if stage == "ask_gender" then
        Except.ok ({ s with gender := some text, stage := some "ask_age" }, db1, [.askAge])
      else if stage == "ask_age" then
        match ageParse text with
        | none => Except.ok (s, db1, [.ageReprompt])
        | some age => ht_age_ok u cond shuffle s db1 age
      else
        Except.ok (ht_video_block u stage text s db1)

/-- Models `"female" in q.data`: Python substring membership. -/
def containsSub (hay needle : String) : Bool :=
  (hay.splitOn needle).length > 1

/-- Models `handle_gender_choice` (lines 864-885).  Stores the gender both in the
session and durably; `participant_name` is forwarded from the session (it
may be `None`, in which case it is not written). -/
def handle_gender_choice (u : TgUser) (data : String) (s : Session) (db : Db) :
    Session × Db × List Reply :=
  let gender := if containsSub data "female" then "Женский" else "Мужской"
  let s1 := { s with gender := some gender, stage := some "ask_age" }
  let db1 := create_participant u.id u.username u.firstName
    s.participantName (some gender) none none none db
  (s1, db1, [.genderAck gender])

/-- The result of `handle_likert`, with `trace` listing every committed
database state in order (one entry per committed transaction). -/
structure LikertResult where
  session : Session
  db : Db
  replies : List Reply
  trace : List Db
deriving Repr, DecidableEq

/-- Models `handle_likert` (lines 888-963).  The callback pattern `^likert_\d+$`
delivers a non-negative integer score; a score outside 1..10 raises
ValueError, caught by the handler's own `except Exception` (reply only, no
state change). -/
def handle_likert (u : TgUser) (score : Int) (s : Session) (db : Db) :
    LikertResult :=
  if score < 1 || 10 < score then ⟨s, db, [.unexpectedError], []⟩
  else
    match get_participant db u.id with
    | none => ⟨sessionClear, db, [.sessionNotFound], []⟩
    | some p =>
      if p.completed then ⟨sessionClear, db, [.sessionNotFound], []⟩
      else
        let idx := p.currentVideoIdx
        let total := p.totalVideos
        match get_video_by_position db u.id idx with
        | none => ⟨s, db, [.videoInfoMissing], []⟩
        | some v =>
          let db1 := upsert_answer_field u.id idx v.scenario v.fileId
            (.scenario_rating score) db
          let nextIdx := idx + 1
          if total ≤ nextIdx then
            let db2 := update_participant_progress u.id (some nextIdx) (some true) db1
            match get_participant db2 u.id with
            | some p2 => ⟨sessionClear, db2, [.finalMessage (finalName p2)], [db1, db2]⟩
            | none => ⟨s, db2, [.unexpectedError], [db1, db2]⟩
          else
            let db2 := update_participant_progress u.id (some nextIdx) none db1
            let s1 := { s with stage := none }
            let sr := continue_experiment u.id s1 db2
            ⟨sr.1, db2, .thanksNext :: sr.2, [db1, db2]⟩

/-- The database after a `handle_text` result, whether it returned or raised
(an exception leaves the transactions committed so far in place). -/
def htDb (r : Except (String × Db) (Session × Db × List Reply)) : Db :=
  match r with
  | Except.ok t => t.2.1
  | Except.error e => e.2

/-- One inbound event fully processed by one of the four registered
handlers, as a relation on committed database states.  The randomness
parameters are constrained exactly as the `random` module guarantees. -/
inductive SysStep : Db → Db → Prop
  | start (u : TgUser) (s : Session) {db : Db} :
      SysStep db (start u s db).2.1
  | text (u : TgUser) (text0 cond : String)
      (shuffle : List (String × String) → List (String × String))
      (s : Session) {db : Db}
      (hsh : ∀ l, (shuffle l).Perm l) :
      SysStep db (htDb (handle_text u text0 cond shuffle s db))
  | gender (u : TgUser) (data : String) (s : Session) {db : Db} :
      SysStep db (handle_gender_choice u data s db).2.1
  | likert (u : TgUser) (score : Int) (s : Session) {db : Db} :
      SysStep db (handle_likert u score s db).db

-- ---------------------------------------------------------------------------
-- Export utility (`src/read_db.py`)
-- ---------------------------------------------------------------------------

/-- One row of the `participants` sheet produced by `load_participants`. -/
structure PartExportRow where
  user_id : Nat
  tg_username : String
  first_name : String
  participant_name : Option String
  gender : Option String
  age : Option Int
  condition : Option String
  completed : Bool
  created_at : String
deriving Repr, DecidableEq

/-- Models `load_participants`: the projection its SELECT applies to one row. -/
def projParticipant (p : Participant) : PartExportRow :=
  ⟨p.userId, p.tgUsername, p.firstName, p.participantName, p.gender, p.age,
   p.condition, p.completed, p.createdAt⟩

/-- Models `load_participants` (lines 30-49).  `ORDER BY user_id` only permutes the
emitted rows; we keep table order and treat the result as a row multiset. -/
def load_participants (db : Db) : List PartExportRow :=
  db.participants.map projParticipant

/-- One row of the `answers` sheet produced by `load_answers`; the columns
from the two left-joined tables are NULL when unmatched. -/
structure AnsExportRow where
  user_id : Nat
  tg_username : String
  first_name : String
  participant_name : Option String
  gender : Option String
  age : Option Int
  condition : Option String
  video_position : Option Nat
  video_scenario : Option String
  answer_description : Option String
  answer_adv_behavior : Option String
  answer_adv_choice : Option String
  answer_scenario_rating : Option Int
deriving Repr, DecidableEq

/-- The SELECT list of `load_answers` applied to one joined row. -/
def mkAnsExportRow (p : Participant) (v : Option SeqRow) (a : Option AnsRow) :
    AnsExportRow :=
  ⟨p.userId, p.tgUsername, p.firstName, p.participantName, p.gender, p.age,
   p.condition, v.map (·.position), v.map (·.scenario),
   a.bind (·.description), a.bind (·.advBehavior), a.bind (·.advChoice),
   a.bind (·.scenarioRating)⟩

/-- The rows `LEFT JOIN answers ON a.user_id = p.user_id AND a.position =
v.position` contributes for one `(p, v)` pair. -/
def joinAnswers (db : Db) (p : Participant) (v : SeqRow) : List AnsExportRow :=
  let arows := db.answers.filter
    (fun a => a.userId == p.userId && a.position == v.position)
  if arows.isEmpty then [mkAnsExportRow p (some v) none]
  else arows.map (fun a => mkAnsExportRow p (some v) (some a))

/-- The rows of `LEFT JOIN video_sequence ON v.user_id = p.user_id`
contributed by one participant. -/
def joinSeq (db : Db) (p : Participant) : List AnsExportRow :=
  let vrows := db.videoSeq.filter (fun v => v.userId == p.userId)
  if vrows.isEmpty then [mkAnsExportRow p none none]
  else vrows.flatMap (joinAnswers db p)

/-- Models `load_answers` (lines 52-105): participants LEFT JOIN video_sequence
LEFT JOIN answers, projected to the SELECT list (which omits `file_id`,
`total_videos`, `current_video_idx` and `completed`).  `ORDER BY` only
permutes the emitted rows; we keep table order. -/
def load_answers (db : Db) : List AnsExportRow :=
  db.participants.flatMap (joinSeq db)

-- ---------------------------------------------------------------------------
-- Toolkit lemmas about the store primitives
-- ---------------------------------------------------------------------------

lemma find?_map_pred {α : Type} (g : α → α) (q : α → Bool)
    (hq : ∀ x, q (g x) = q x) (l : List α) :
    (l.map g).find? q = (l.find? q).map g := by
  have h : q ∘ g = q := funext hq
  rw [List.find?_map, h]

/-- The compound per-field update one `create_participant` call applies to
the target row. -/
def cpApply (tgUsername firstName participantName gender : Option String)
    (age : Option Int) (condition : Option String) (totalVideos : Option Nat)
    (p : Participant) : Participant :=
  { p with
      tgUsername := tgUsername.getD "",
      firstName := firstName.getD "",
      participantName := participantName.or p.participantName,
      gender := gender.or p.gender,
      age := age.or p.age,
      condition := condition.or p.condition,
      totalVideos := totalVideos.getD p.totalVideos }

lemma setOpt_eq_upd {α : Type} (uid : Nat) (o : Option α)
    (s : α → Participant → Participant) (db : Db) :
    setOpt uid o s db =
      updParticipant uid (fun p => match o with | some v => s v p | none => p) db := by
  cases o with
  | none =>
    show db = updParticipant uid (fun p => p) db
    simp [updParticipant]
  | some v => rfl

lemma updParticipant_comp (uid : Nat) (f g : Participant → Participant)
    (hf : ∀ p, (f p).userId = p.userId) (db : Db) :
    updParticipant uid g (updParticipant uid f db) =
      updParticipant uid (fun p => g (f p)) db := by
  simp only [updParticipant, List.map_map]
  have : ((fun p => if (p.userId == uid) = true then g p else p) ∘
      fun p => if (p.userId == uid) = true then f p else p) =
      fun p => if (p.userId == uid) = true then g (f p) else p := by
    funext p
    by_cases h : p.userId == uid
    · simp [Function.comp, h, hf]
    · simp [Function.comp, h]
  rw [this]

lemma create_participant_eq (uid : Nat) (tgU fN pn g : Option String)
    (a : Option Int) (c : Option String) (t : Option Nat) (db : Db) :
    create_participant uid tgU fN pn g a c t db =
      updParticipant uid (cpApply tgU fN pn g a c t)
        (if db.participants.any (fun p => p.userId == uid) then db
         else { db with participants :=
            db.participants ++ [freshParticipant uid (tgU.getD "") (fN.getD "")] }) := by
  by_cases h : db.participants.any (fun p => p.userId == uid)
  · simp only [create_participant, h, if_true, setOpt_eq_upd, updParticipant, List.map_map]
    refine congrArg (fun l => { db with participants := l }) ?_
    apply List.map_congr_left
    intro p _
    by_cases hp : p.userId == uid <;>
      cases pn <;> cases g <;> cases a <;> cases c <;> cases t <;>
        simp [Function.comp, hp, cpApply]
  · simp only [create_participant, h, if_false, setOpt_eq_upd, updParticipant, List.map_map]
    refine congrArg (fun l => { db with participants := l }) ?_
    apply List.map_congr_left
    intro p hp
    rcases List.mem_append.1 hp with hmem | hfresh
    · have hne : ¬(p.userId == uid) = true := by
        intro hx
        exact h (List.any_eq_true.2 ⟨p, hmem, hx⟩)
      cases pn <;> cases g <;> cases a <;> cases c <;> cases t <;>
        simp [Function.comp, hne]
    · have hp' : p = freshParticipant uid (tgU.getD "") (fN.getD "") := by simpa using hfresh
      subst hp'
      cases pn <;> cases g <;> cases a <;> cases c <;> cases t <;>
        simp [Function.comp, freshParticipant, cpApply]

lemma cpApply_userId (tgU fN pn g : Option String) (a : Option Int)
    (c : Option String) (t : Option Nat) (p : Participant) :
    (cpApply tgU fN pn g a c t p).userId = p.userId := rfl

lemma get_participant_updParticipant (uid uid' : Nat) (f : Participant → Participant)
    (hf : ∀ p, (f p).userId = p.userId) (db : Db) :
    get_participant (updParticipant uid f db) uid' =
      (get_participant db uid').map (fun p => if p.userId == uid then f p else p) := by
  unfold get_participant updParticipant
  exact find?_map_pred _ _
    (fun x => by by_cases hx : x.userId == uid <;> simp [hx, hf]) _

lemma get_participant_key {db : Db} {uid : Nat} {p : Participant}
    (h : get_participant db uid = some p) : p.userId = uid := by
  unfold get_participant at h
  have := List.find?_some h
  simpa using this

lemma get_participant_create_self (uid : Nat) (tgU fN pn g : Option String)
    (a : Option Int) (c : Option String) (t : Option Nat) (db : Db) :
    get_participant (create_participant uid tgU fN pn g a c t db) uid =
      some (cpApply tgU fN pn g a c t
        ((get_participant db uid).getD (freshParticipant uid (tgU.getD "") (fN.getD "")))) := by
  rw [create_participant_eq]
  by_cases h : db.participants.any (fun p => p.userId == uid)
  · rw [if_pos h, get_participant_updParticipant _ _ _ (cpApply_userId tgU fN pn g a c t)]
    obtain ⟨p, hp⟩ : ∃ p, get_participant db uid = some p := by
      obtain ⟨x, hx, hpx⟩ := List.any_eq_true.1 h
      have : (db.participants.find? (fun p => p.userId == uid)).isSome :=
        List.find?_isSome.2 ⟨x, hx, hpx⟩
      exact Option.isSome_iff_exists.1 this
    have hkey : (p.userId == uid) = true := by simp [get_participant_key hp]
    simp only [hp, Option.map_some, Option.map_some', Option.getD_some]
    simp [hkey]
  · rw [if_neg h]
    have hnone : get_participant db uid = none := by
      unfold get_participant
      rw [List.find?_eq_none]
      intro x hx hpx
      exact h (List.any_eq_true.2 ⟨x, hx, hpx⟩)
    have hbase : get_participant
        { db with participants :=
          db.participants ++ [freshParticipant uid (tgU.getD "") (fN.getD "")] } uid =
        some (freshParticipant uid (tgU.getD "") (fN.getD "")) := by
      unfold get_participant at hnone ⊢
      rw [List.find?_append]
      simp only [hnone, Option.none_or]
      simp [freshParticipant]
    rw [get_participant_updParticipant _ _ _ (cpApply_userId tgU fN pn g a c t), hbase]
    simp [hnone, freshParticipant]

lemma get_participant_create_other (uid uid' : Nat) (tgU fN pn g : Option String)
    (a : Option Int) (c : Option String) (t : Option Nat) (db : Db)
    (hne : uid' ≠ uid) :
    get_participant (create_participant uid tgU fN pn g a c t db) uid' =
      get_participant db uid' := by
  rw [create_participant_eq]
  have hrow : ∀ d : Db, get_participant (updParticipant uid (cpApply tgU fN pn g a c t) d) uid' =
      get_participant d uid' := by
    intro d
    rw [get_participant_updParticipant _ _ _ (cpApply_userId tgU fN pn g a c t)]
    cases hd : get_participant d uid' with
    | none => rfl
    | some p =>
      have hkey : p.userId = uid' := get_participant_key hd
      have hne2 : ¬(p.userId == uid) = true := by simp [hkey, hne]
      simp [hne2]
      intro hx
      exact absurd (by simp [hx]) hne2
  by_cases h : db.participants.any (fun p => p.userId == uid)
  · rw [if_pos h, hrow]
  · rw [if_neg h, hrow]
    unfold get_participant
    rw [List.find?_append]
    have : ([freshParticipant uid (tgU.getD "") (fN.getD "")].find?
        (fun p => p.userId == uid')) = none := by
      simp [freshParticipant]
      omega
    simp [this]

lemma create_participant_others (uid : Nat) (tgU fN pn g : Option String)
    (a : Option Int) (c : Option String) (t : Option Nat) (db : Db) :
    (create_participant uid tgU fN pn g a c t db).users = db.users ∧
    (create_participant uid tgU fN pn g a c t db).videoSeq = db.videoSeq ∧
    (create_participant uid tgU fN pn g a c t db).answers = db.answers := by
  rw [create_participant_eq]
  by_cases h : db.participants.any (fun p => p.userId == uid) <;>
    simp [h, updParticipant]

/-- Every row of the participants table after `create_participant` comes
from an old row or from the fresh default row, with the per-field update
possibly applied. -/
lemma mem_participants_create (uid : Nat) (tgU fN pn g : Option String)
    (a : Option Int) (c : Option String) (t : Option Nat) (db : Db)
    (p' : Participant)
    (hp' : p' ∈ (create_participant uid tgU fN pn g a c t db).participants) :
    ∃ src, (src ∈ db.participants ∨ src = freshParticipant uid (tgU.getD "") (fN.getD "")) ∧
      (p' = src ∨ p' = cpApply tgU fN pn g a c t src) := by
  rw [create_participant_eq] at hp'
  by_cases h : db.participants.any (fun p => p.userId == uid)
  · rw [if_pos h] at hp'
    simp only [updParticipant, List.mem_map] at hp'
    obtain ⟨src, hsrc, heq⟩ := hp'
    refine ⟨src, Or.inl hsrc, ?_⟩
    by_cases hk : src.userId == uid <;> simp [hk] at heq <;> [exact Or.inr heq.symm; exact Or.inl heq.symm]
  · rw [if_neg h] at hp'
    simp only [updParticipant, List.mem_map] at hp'
    obtain ⟨src, hsrc, heq⟩ := hp'
    rcases List.mem_append.1 hsrc with hold | hfr
    · refine ⟨src, Or.inl hold, ?_⟩
      by_cases hk : src.userId == uid <;> simp [hk] at heq <;> [exact Or.inr heq.symm; exact Or.inl heq.symm]
    · refine ⟨src, Or.inr (by simpa using hfr), ?_⟩
      by_cases hk : src.userId == uid <;> simp [hk] at heq <;> [exact Or.inr heq.symm; exact Or.inl heq.symm]

-- Toolkit for `update_participant_progress`, `ensure_user`, `upsert_answer_field`

lemma ensure_user_others (uid : Nat) (un fn : String) (db : Db) :
    (ensure_user uid un fn db).participants = db.participants ∧
    (ensure_user uid un fn db).videoSeq = db.videoSeq ∧
    (ensure_user uid un fn db).answers = db.answers := by
  unfold ensure_user
  by_cases h : db.users.any (fun u => u.userId == uid) <;> simp [h]

lemma upp_others (uid : Nat) (i : Option Nat) (c : Option Bool) (db : Db) :
    (update_participant_progress uid i c db).users = db.users ∧
    (update_participant_progress uid i c db).videoSeq = db.videoSeq ∧
    (update_participant_progress uid i c db).answers = db.answers := by
  unfold update_participant_progress
  by_cases h : i.isNone && c.isNone <;> simp [h, updParticipant]

lemma upp_some_eq (uid : Nat) (i : Nat) (c : Option Bool) (db : Db) :
    update_participant_progress uid (some i) c db =
      updParticipant uid
        (fun p => { p with currentVideoIdx := i, completed := c.getD p.completed }) db := by
  unfold update_participant_progress
  simp

lemma get_participant_upp_self (uid : Nat) (i : Nat) (c : Option Bool) (db : Db)
    (p : Participant) (hp : get_participant db uid = some p) :
    get_participant (update_participant_progress uid (some i) c db) uid =
      some { p with currentVideoIdx := i, completed := c.getD p.completed } := by
  rw [upp_some_eq, get_participant_updParticipant uid uid
    (fun p => { p with currentVideoIdx := i, completed := c.getD p.completed })
    (fun q => rfl), hp]
  have hkey : (p.userId == uid) = true := by simp [get_participant_key hp]
  simp [hkey]
  intro hx
  exact absurd (get_participant_key hp) hx

lemma get_participant_upp_other (uid uid' : Nat) (i : Option Nat) (c : Option Bool)
    (db : Db) (hne : uid' ≠ uid) :
    get_participant (update_participant_progress uid i c db) uid' =
      get_participant db uid' := by
  unfold update_participant_progress
  by_cases h : i.isNone && c.isNone
  · simp [h]
  · rw [if_neg h, get_participant_updParticipant uid uid'
      (fun p => { p with currentVideoIdx := i.getD p.currentVideoIdx,
                         completed := c.getD p.completed })
      (fun q => rfl)]
    cases hd : get_participant db uid' with
    | none => rfl
    | some p =>
      have hkey : p.userId = uid' := get_participant_key hd
      have hne2 : ¬(p.userId == uid) = true := by simp [hkey, hne]
      simp [hne2]
      intro hx
      exact absurd (by simp [hx]) hne2

lemma mem_participants_upp (uid : Nat) (i : Option Nat) (c : Option Bool) (db : Db)
    (p' : Participant)
    (hp' : p' ∈ (update_participant_progress uid i c db).participants) :
    ∃ src ∈ db.participants, p' = src ∨
      p' = { src with currentVideoIdx := i.getD src.currentVideoIdx,
                      completed := c.getD src.completed } := by
  unfold update_participant_progress at hp'
  by_cases h : i.isNone && c.isNone
  · rw [if_pos h] at hp'
    exact ⟨p', hp', Or.inl rfl⟩
  · rw [if_neg h] at hp'
    simp only [updParticipant, List.mem_map] at hp'
    obtain ⟨src, hsrc, heq⟩ := hp'
    by_cases hk : src.userId == uid <;> simp [hk] at heq <;>
      [exact ⟨src, hsrc, Or.inr heq.symm⟩; exact ⟨src, hsrc, Or.inl heq.symm⟩]

/-- The compound update one `upsert_answer_field` call applies to the
target answers row. -/
def uaApply (scenario fileId : String) (fw : FieldWrite) (a : AnsRow) : AnsRow :=
  applyFieldWrite fw { a with scenario := scenario, fileId := fileId }

def freshAns (uid pos : Nat) (scenario fileId : String) : AnsRow :=
  ⟨uid, pos, scenario, fileId, none, none, none, none⟩

/-- The conditional row update of `upsert_answer_field`. -/
def uaRow (uid pos : Nat) (sc fid : String) (fw : FieldWrite) (a : AnsRow) : AnsRow :=
  if a.userId == uid && a.position == pos then uaApply sc fid fw a else a

/-- The answers list after the lazy INSERT of `upsert_answer_field`. -/
def uaBase (uid pos : Nat) (sc fid : String) (db : Db) : List AnsRow :=
  if db.answers.any (fun a => a.userId == uid && a.position == pos) then db.answers
  else db.answers ++ [freshAns uid pos sc fid]

lemma applyFieldWrite_key (fw : FieldWrite) (a : AnsRow) :
    (applyFieldWrite fw a).userId = a.userId ∧
    (applyFieldWrite fw a).position = a.position := by
  cases fw <;> exact ⟨rfl, rfl⟩

lemma upsert_answer_eq (uid pos : Nat) (sc fid : String) (fw : FieldWrite) (db : Db) :
    upsert_answer_field uid pos sc fid fw db =
      { db with answers := (uaBase uid pos sc fid db).map (uaRow uid pos sc fid fw) } := by
  by_cases h : db.answers.any (fun a => a.userId == uid && a.position == pos)
  · simp only [upsert_answer_field, uaBase, h, if_true, List.map_map]
    refine congrArg (fun l => { db with answers := l }) ?_
    apply List.map_congr_left
    intro a _
    by_cases hk : a.userId == uid && a.position == pos
    · cases fw <;> simp [Function.comp, hk, uaRow, uaApply, applyFieldWrite]
    · simp [Function.comp, hk, uaRow]
  · simp only [upsert_answer_field, uaBase, h, if_false]
    refine congrArg (fun l => { db with answers := l }) ?_
    apply List.map_congr_left
    intro a ha
    rcases List.mem_append.1 ha with hold | hfr
    · have hk : ¬(a.userId == uid && a.position == pos) = true := by
        intro hx
        exact absurd (List.any_eq_true.2 ⟨a, hold, hx⟩) h
      simp [uaRow, hk]
    · have ha' : a = freshAns uid pos sc fid := by simpa using hfr
      subst ha'
      simp [uaRow, freshAns, uaApply]

lemma upsert_answer_others (uid pos : Nat) (sc fid : String) (fw : FieldWrite) (db : Db) :
    (upsert_answer_field uid pos sc fid fw db).users = db.users ∧
    (upsert_answer_field uid pos sc fid fw db).participants = db.participants ∧
    (upsert_answer_field uid pos sc fid fw db).videoSeq = db.videoSeq := by
  rw [upsert_answer_eq]
  exact ⟨rfl, rfl, rfl⟩

lemma get_answer_key {db : Db} {uid pos : Nat} {a : AnsRow}
    (h : get_answer db uid pos = some a) : a.userId = uid ∧ a.position = pos := by
  unfold get_answer at h
  have := List.find?_some h
  constructor <;> simp_all

lemma get_answer_upsert_self (uid pos : Nat) (sc fid : String) (fw : FieldWrite) (db : Db) :
    get_answer (upsert_answer_field uid pos sc fid fw db) uid pos =
      some (uaApply sc fid fw ((get_answer db uid pos).getD (freshAns uid pos sc fid))) := by
  rw [upsert_answer_eq]
  have hpres : ∀ x : AnsRow,
      ((uaRow uid pos sc fid fw x).userId == uid && (uaRow uid pos sc fid fw x).position == pos) =
      (x.userId == uid && x.position == pos) := by
    intro x
    unfold uaRow
    by_cases hk : x.userId == uid && x.position == pos
    · have h1 := applyFieldWrite_key fw { x with scenario := sc, fileId := fid }
      simp [hk, uaApply, h1.1, h1.2]
    · simp [hk]
  show (((uaBase uid pos sc fid db).map (uaRow uid pos sc fid fw)).find?
    (fun a => a.userId == uid && a.position == pos)) = _
  rw [find?_map_pred _ _ hpres]
  unfold uaBase
  by_cases h : db.answers.any (fun a => a.userId == uid && a.position == pos)
  · rw [if_pos h]
    obtain ⟨a, ha⟩ : ∃ a, get_answer db uid pos = some a := by
      have : (db.answers.find? (fun a => a.userId == uid && a.position == pos)).isSome := by
        obtain ⟨x, hx, hpx⟩ := List.any_eq_true.1 h
        exact List.find?_isSome.2 ⟨x, hx, hpx⟩
      exact Option.isSome_iff_exists.1 this
    have hkey : (a.userId == uid && a.position == pos) = true := by
      obtain ⟨h1, h2⟩ := get_answer_key ha
      simp [h1, h2]
    unfold get_answer at ha
    rw [ha]
    unfold get_answer
    rw [ha]
    simp [uaRow, hkey]
  · rw [if_neg h]
    have hnone : db.answers.find? (fun a => a.userId == uid && a.position == pos) = none := by
      rw [List.find?_eq_none]
      intro x hx hpx
      exact h (List.any_eq_true.2 ⟨x, hx, hpx⟩)
    rw [List.find?_append, hnone]
    unfold get_answer
    rw [hnone]
    simp [freshAns, uaRow, uaApply]

lemma get_answer_upsert_other (uid pos uid' pos' : Nat) (sc fid : String)
    (fw : FieldWrite) (db : Db) (hne : ¬(uid' = uid ∧ pos' = pos)) :
    get_answer (upsert_answer_field uid pos sc fid fw db) uid' pos' =
      get_answer db uid' pos' := by
  rw [upsert_answer_eq]
  have hpres : ∀ x : AnsRow,
      ((uaRow uid pos sc fid fw x).userId == uid' && (uaRow uid pos sc fid fw x).position == pos') =
      (x.userId == uid' && x.position == pos') := by
    intro x
    unfold uaRow
    by_cases hk : x.userId == uid && x.position == pos
    · have h1 := applyFieldWrite_key fw { x with scenario := sc, fileId := fid }
      simp [hk, uaApply, h1.1, h1.2]
    · simp [hk]
  show (((uaBase uid pos sc fid db).map (uaRow uid pos sc fid fw)).find?
    (fun a => a.userId == uid' && a.position == pos')) = _
  rw [find?_map_pred _ _ hpres]
  unfold uaBase
  have hstep : ∀ l : List AnsRow,
      (l.find? (fun a => a.userId == uid' && a.position == pos')).map (uaRow uid pos sc fid fw) =
      l.find? (fun a => a.userId == uid' && a.position == pos') := by
    intro l
    cases hd : l.find? (fun a => a.userId == uid' && a.position == pos') with
    | none => rfl
    | some a =>
      have hkey := List.find?_some hd
      have h1 : a.userId = uid' := by simp_all
      have h2 : a.position = pos' := by simp_all
      have hk : ¬(a.userId == uid && a.position == pos) = true := by
        subst h1 h2
        intro hx
        simp only [Bool.and_eq_true, beq_iff_eq] at hx
        exact hne ⟨hx.1, hx.2⟩
      simp [uaRow, hk]
  by_cases h : db.answers.any (fun a => a.userId == uid && a.position == pos)
  · rw [if_pos h]
    exact hstep _
  · rw [if_neg h, List.find?_append]
    have hfr : ([freshAns uid pos sc fid].find?
        (fun a => a.userId == uid' && a.position == pos')) = none := by
      simp only [List.find?_cons, List.find?_nil]
      have : ¬((freshAns uid pos sc fid).userId == uid' &&
          (freshAns uid pos sc fid).position == pos') = true := by
        intro hx
        simp only [freshAns, Bool.and_eq_true, beq_iff_eq] at hx
        exact hne ⟨hx.1.symm, hx.2.symm⟩
      simp [this]
    rw [hfr, Option.or_none]
    exact hstep _

-- Toolkit for `create_video_sequence_for_participant`

lemma cvs_core (uid : Nat) (cond : String)
    (shuffle : List (String × String) → List (String × String)) (db : Db)
    (files : List (String × String)) (videos : List (String × String))
    (hfiles : dictGet VIDEO_FILES cond = some files)
    (hvid : videosFor files SCENARIOS = Except.ok videos)
    (hlen : videos.length = 4)
    (hfst : videos.map Prod.fst = SCENARIOS)
    (hlook : ∀ x ∈ videos, dictGet files x.1 = some x.2)
    (hsh : ∀ l, (shuffle l).Perm l) :
    ∃ db', create_video_sequence_for_participant uid cond shuffle db = Except.ok db' ∧
      db'.users = db.users ∧ db'.participants = db.participants ∧
      db'.answers = db.answers ∧
      (db'.videoSeq.filter (fun v => v.userId == uid)).map SeqRow.position = [0, 1, 2, 3] ∧
      ((db'.videoSeq.filter (fun v => v.userId == uid)).map SeqRow.scenario).Perm SCENARIOS ∧
      (∀ v ∈ db'.videoSeq.filter (fun v => v.userId == uid),
        v.condition = cond ∧ dictGet files v.scenario = some v.fileId) ∧
      db'.videoSeq.filter (fun v => !(v.userId == uid)) =
        db.videoSeq.filter (fun v => !(v.userId == uid)) := by
  have hperm : (shuffle videos).Perm videos := hsh videos
  have hlen' : (shuffle videos).length = 4 := hperm.length_eq.trans hlen
  set shuffled := shuffle videos with hshuf
  set newRows : List SeqRow :=
    shuffled.enum.map (fun pv => ⟨uid, pv.1, cond, pv.2.1, pv.2.2⟩) with hnew
  set kept := db.videoSeq.filter (fun v => !(v.userId == uid)) with hkept
  have hok : create_video_sequence_for_participant uid cond shuffle db =
      Except.ok { db with videoSeq := kept ++ newRows } := by
    unfold create_video_sequence_for_participant
    simp only [hfiles, hvid]
  have hmemNew : ∀ v ∈ newRows, v.userId = uid ∧ v.condition = cond ∧
      (v.scenario, v.fileId) ∈ shuffled := by
    intro v hv
    rw [hnew] at hv
    obtain ⟨pv, hpv, hveq⟩ := List.mem_map.1 hv
    subst hveq
    refine ⟨rfl, rfl, ?_⟩
    show pv.2 ∈ shuffled
    have := List.mem_map_of_mem Prod.snd hpv
    rwa [List.enum_map_snd] at this
  have hfilter_self : (kept ++ newRows).filter (fun v => v.userId == uid) = newRows := by
    rw [List.filter_append]
    have h1 : kept.filter (fun v => v.userId == uid) = [] := by
      rw [hkept, List.filter_filter]
      have he : (fun (a : SeqRow) => (a.userId == uid) && !(a.userId == uid)) =
          (fun _ => false) := by
        funext a
        exact Bool.and_not_self _
      rw [he, List.filter_false]
    have h2 : newRows.filter (fun v => v.userId == uid) = newRows := by
      rw [List.filter_eq_self]
      intro v hv
      simp [(hmemNew v hv).1]
    rw [h1, h2, List.nil_append]
  have hfilter_other : (kept ++ newRows).filter (fun v => !(v.userId == uid)) = kept := by
    rw [List.filter_append]
    have h1 : kept.filter (fun v => !(v.userId == uid)) = kept := by
      rw [hkept, List.filter_filter]
      have he : (fun (a : SeqRow) => !(a.userId == uid) && !(a.userId == uid)) =
          (fun a : SeqRow => !(a.userId == uid)) := by
        funext a
        exact Bool.and_self _
      rw [he]
    have h2 : newRows.filter (fun v => !(v.userId == uid)) = [] := by
      rw [List.filter_eq_nil_iff]
      intro v hv
      simp [(hmemNew v hv).1]
    rw [h1, h2, List.append_nil]
  refine ⟨_, hok, rfl, rfl, rfl, ?_, ?_, ?_, ?_⟩
  · show ((kept ++ newRows).filter (fun v => v.userId == uid)).map SeqRow.position = _
    rw [hfilter_self, hnew, List.map_map]
    have he : (SeqRow.position ∘ fun pv : Nat × (String × String) =>
        (⟨uid, pv.1, cond, pv.2.1, pv.2.2⟩ : SeqRow)) = Prod.fst := rfl
    rw [he, List.enum_map_fst, hlen']
    rfl
  · show (((kept ++ newRows).filter (fun v => v.userId == uid)).map SeqRow.scenario).Perm _
    rw [hfilter_self, hnew, List.map_map]
    have he : (SeqRow.scenario ∘ fun pv : Nat × (String × String) =>
        (⟨uid, pv.1, cond, pv.2.1, pv.2.2⟩ : SeqRow)) =
        (Prod.fst ∘ Prod.snd) := rfl
    rw [he, ← List.map_map, List.enum_map_snd, ← hfst]
    exact hperm.map Prod.fst
  · show ∀ v ∈ (kept ++ newRows).filter (fun v => v.userId == uid), _
    rw [hfilter_self]
    intro v hv
    obtain ⟨_, hcond, hmem⟩ := hmemNew v hv
    refine ⟨hcond, ?_⟩
    have hvm : (v.scenario, v.fileId) ∈ videos := hperm.mem_iff.1 hmem
    exact hlook _ hvm
  · show (kept ++ newRows).filter (fun v => !(v.userId == uid)) = _
    rw [hfilter_other]

/-- The `(scenario, file_id)` list built for condition "без". -/
def videosBez : List (String × String) := (VIDEO_FILES.get ⟨0, by decide⟩).2

/-- The `(scenario, file_id)` list built for condition "с". -/
def videosS : List (String × String) := (VIDEO_FILES.get ⟨1, by decide⟩).2

lemma cvs_spec (uid : Nat) (cond : String)
    (shuffle : List (String × String) → List (String × String)) (db : Db)
    (hc : cond ∈ VIDEO_CONDITIONS) (hsh : ∀ l, (shuffle l).Perm l) :
    ∃ db', create_video_sequence_for_participant uid cond shuffle db = Except.ok db' ∧
      db'.users = db.users ∧ db'.participants = db.participants ∧
      db'.answers = db.answers ∧
      (db'.videoSeq.filter (fun v => v.userId == uid)).map SeqRow.position = [0, 1, 2, 3] ∧
      ((db'.videoSeq.filter (fun v => v.userId == uid)).map SeqRow.scenario).Perm SCENARIOS ∧
      (∀ v ∈ db'.videoSeq.filter (fun v => v.userId == uid),
        v.condition = cond ∧
        (dictGet VIDEO_FILES cond).bind (fun files => dictGet files v.scenario) = some v.fileId) ∧
      db'.videoSeq.filter (fun v => !(v.userId == uid)) =
        db.videoSeq.filter (fun v => !(v.userId == uid)) := by
  have hc2 : cond = "без" ∨ cond = "с" := by simpa [VIDEO_CONDITIONS] using hc
  rcases hc2 with hcv | hcv <;> subst hcv
  · have hfiles : dictGet VIDEO_FILES "без" = some videosBez := by decide
    obtain ⟨db', hok, hu, hp, ha, h1, h2, h3, h4⟩ :=
      cvs_core uid "без" shuffle db videosBez videosBez hfiles (by rfl) (by decide)
        (by decide) (by decide) hsh
    refine ⟨db', hok, hu, hp, ha, h1, h2, ?_, h4⟩
    intro v hv
    obtain ⟨hcond, hfid⟩ := h3 v hv
    exact ⟨hcond, by rw [hfiles]; simpa using hfid⟩
  · have hfiles : dictGet VIDEO_FILES "с" = some videosS := by decide
    obtain ⟨db', hok, hu, hp, ha, h1, h2, h3, h4⟩ :=
      cvs_core uid "с" shuffle db videosS videosS hfiles (by rfl) (by decide)
        (by decide) (by decide) hsh
    refine ⟨db', hok, hu, hp, ha, h1, h2, ?_, h4⟩
    intro v hv
    obtain ⟨hcond, hfid⟩ := h3 v hv
    exact ⟨hcond, by rw [hfiles]; simpa using hfid⟩

-- ---------------------------------------------------------------------------
-- Claim theorems
-- ---------------------------------------------------------------------------

/-- C1: for every participant state the Progress Resolver
(`determine_next_stage`) returns exactly the stage given by the spec's
fixed-order rule (`resolveSpec`): no record → no_participant; completed →
finished; position ≥ total → finished; otherwise the four-field ladder on
the Answer row at the current position, with expect_description as the
all-fields-filled fallback. -/
theorem C1_resolver_matches_spec (db : Db) (uid : Nat) :
    determine_next_stage db uid =
      resolveSpec (get_participant db uid)
        ((get_participant db uid).bind (fun p => get_answer db uid p.currentVideoIdx)) := by
  unfold determine_next_stage resolveSpec
  cases hgp : get_participant db uid with
  | none => rfl
  | some p =>
    by_cases hc : p.completed
    · simp [hc]
    · by_cases ht : p.totalVideos ≤ p.currentVideoIdx
      · simp [hc, ht]
      · cases ha : get_answer db uid p.currentVideoIdx <;> simp [hc, ht, ha]

/-- The concrete state used to exhibit the name-overwrite defect: a
participant who already completed intake of the name step. -/
def bugUser : TgUser := ⟨1, some "alex", some "Alex"⟩

def bugParticipant : Participant :=
  { userId := 1, tgUsername := "alex", firstName := "Alex",
    participantName := some "Alex", gender := none, age := none,
    condition := none, currentVideoIdx := 0, totalVideos := 4,
    completed := false, createdAt := "CURRENT_TIMESTAMP" }

def bugDb : Db := ⟨[⟨1, "alex", "Alex"⟩], [bugParticipant], [], []⟩

/-- The database after the gender question is answered with the text
"Мужской" (session stage `ask_gender`). -/
def c4Res : Db :=
  htDb (handle_text bugUser "Мужской" "без" id ⟨some "ask_gender", some "Alex", none⟩ bugDb)

/-- C4: refuted on the code.  A text message handled at stage `ask_gender`
overwrites the stored `participant_name` with the message text (the
unconditional `create_participant(..., participant_name=text)` at
`handle_text` lines 709-718): "Alex" becomes "Мужской". -/
theorem C4_name_overwritten_by_later_text :
    (get_participant bugDb 1).map Participant.participantName = some (some "Alex") ∧
    (get_participant c4Res 1).map Participant.participantName = some (some "Мужской") := by
  constructor <;> decide

/-- The result of submitting the non-numeric age "abc" at stage `ask_age`
for a participant whose stored fields are name "Alex", gender "Женский". -/
def c5Db : Db :=
  ⟨[⟨1, "alex", "Alex"⟩],
   [{ bugParticipant with gender := some "Женский" }], [], []⟩

def c5Res : Except (String × Db) (Session × Db × List Reply) :=
  handle_text bugUser "abc" "без" id ⟨some "ask_age", some "Alex", some "Женский"⟩ c5Db

/-- C5: refuted on the code.  The age validation failure does re-prompt and
leaves gender, age, condition, total, position and completed untouched, but
the stored `participant_name` has already been overwritten with the invalid
text "abc" by the unconditional upsert that runs before the validation. -/
theorem C5_invalid_age_mutates_stored_name :
    (c5Res.toOption.map (fun t => t.2.2) = some [Reply.ageReprompt]) ∧
    (c5Res.toOption.map (fun t => (get_participant t.2.1 1).map Participant.participantName) =
      some (some (some "abc"))) ∧
    ((get_participant c5Db 1).map Participant.participantName = some (some "Alex")) ∧
    (c5Res.toOption.map (fun t => get_participant t.2.1 1) =
      some (some { bugParticipant with gender := some "Женский",
                                       participantName := some "abc" })) := by
  refine ⟨by decide, by decide, by decide, by decide⟩

/-- C7: for a recognized condition, the Sequence Generator replaces any
previous assignment of the participant with exactly one row per position
0..3 whose scenarios are a permutation of the fixed scenario set, every row
carrying the given condition and its media reference, while rows of other
participants are untouched. -/
theorem C7_sequence_generator (uid : Nat) (cond : String)
    (shuffle : List (String × String) → List (String × String)) (db : Db)
    (hc : cond ∈ VIDEO_CONDITIONS) (hsh : ∀ l, (shuffle l).Perm l) :
    ∃ db', create_video_sequence_for_participant uid cond shuffle db = Except.ok db' ∧
      (db'.videoSeq.filter (fun v => v.userId == uid)).map SeqRow.position = [0, 1, 2, 3] ∧
      ((db'.videoSeq.filter (fun v => v.userId == uid)).map SeqRow.scenario).Perm SCENARIOS ∧
      (∀ v ∈ db'.videoSeq.filter (fun v => v.userId == uid),
        v.condition = cond ∧
        (dictGet VIDEO_FILES cond).bind (fun files => dictGet files v.scenario) = some v.fileId) ∧
      db'.videoSeq.filter (fun v => !(v.userId == uid)) =
        db.videoSeq.filter (fun v => !(v.userId == uid)) := by
  obtain ⟨db', hok, _, _, _, h1, h2, h3, h4⟩ := cvs_spec uid cond shuffle db hc hsh
  exact ⟨db', hok, h1, h2, h3, h4⟩

/-- A database holding a stale assignment row for participant 7, used to
exercise the delete-then-insert path of the Sequence Generator. -/
def c7Db : Db := ⟨[], [], [⟨7, 0, "с", "Пицца", "stale"⟩, ⟨9, 2, "с", "Шахматы", "other"⟩], []⟩

/-- Witness for C7 at `uid = 7`, condition "без", identity shuffle, on a
store already holding an old assignment row for participant 7. -/
theorem C7_sequence_generator_witness :
    ∃ db', create_video_sequence_for_participant 7 "без" id c7Db = Except.ok db' ∧
      (db'.videoSeq.filter (fun v => v.userId == 7)).map SeqRow.position = [0, 1, 2, 3] ∧
      ((db'.videoSeq.filter (fun v => v.userId == 7)).map SeqRow.scenario).Perm SCENARIOS ∧
      (∀ v ∈ db'.videoSeq.filter (fun v => v.userId == 7),
        v.condition = "без" ∧
        (dictGet VIDEO_FILES "без").bind (fun files => dictGet files v.scenario) = some v.fileId) ∧
      db'.videoSeq.filter (fun v => !(v.userId == 7)) =
        c7Db.videoSeq.filter (fun v => !(v.userId == 7)) :=
  C7_sequence_generator 7 "без" id c7Db (by decide) (fun l => List.Perm.refl l)

/-- The error condition of `videosFor`: it fails exactly when some scenario
in the list has no media reference in `files`. -/
lemma videosFor_error_iff (files : List (String × String)) (l : List String) :
    (∃ e, videosFor files l = Except.error e) ↔ ∃ sc ∈ l, dictGet files sc = none := by
  induction l with
  | nil => simp [videosFor]
  | cons sc rest ih =>
    unfold videosFor
    cases hd : dictGet files sc with
    | none => simp [hd]
    | some fid =>
      cases hv : videosFor files rest with
      | error e =>
        simp only [hv, Except.map]
        constructor
        · intro _
          obtain ⟨sc', hsc', hnone⟩ := ih.1 ⟨e, hv⟩
          exact ⟨sc', List.mem_cons_of_mem _ hsc', hnone⟩
        · intro _
          exact ⟨e, rfl⟩
      | ok vs =>
        simp only [hv, Except.map]
        constructor
        · intro ⟨e, he⟩
          cases he
        · intro ⟨sc', hsc', hnone⟩
          rcases List.mem_cons.1 hsc' with hh | hh
          · subst hh
            rw [hd] at hnone
            cases hnone
          · obtain ⟨e, he⟩ := ih.2 ⟨sc', hh, hnone⟩
            rw [he] at hv
            cases hv

/-- C8: the Sequence Generator fails (raises, producing no new store state)
if and only if the condition is not a key of the media table or some
scenario lacks a media reference for it; the keys of the media table are
exactly the two recognized conditions; and whether it fails is independent
of the store contents (the validation runs before any store access). -/
theorem C8_config_error_iff (uid : Nat) (cond : String)
    (shuffle : List (String × String) → List (String × String)) (db : Db) :
    ((∃ e, create_video_sequence_for_participant uid cond shuffle db = Except.error e) ↔
      (dictGet VIDEO_FILES cond = none ∨
        ∃ files, dictGet VIDEO_FILES cond = some files ∧
          ∃ sc ∈ SCENARIOS, dictGet files sc = none)) ∧
    ((dictGet VIDEO_FILES cond).isSome ↔ cond ∈ VIDEO_CONDITIONS) ∧
    (∀ db₂ e, create_video_sequence_for_participant uid cond shuffle db = Except.error e ↔
      create_video_sequence_for_participant uid cond shuffle db₂ = Except.error e) := by
  refine ⟨?_, ?_, ?_⟩
  · unfold create_video_sequence_for_participant
    cases hd : dictGet VIDEO_FILES cond with
    | none => simp [hd]
    | some files =>
      cases hv : videosFor files SCENARIOS with
      | error e =>
        simp only [hd, hv]
        constructor
        · intro _
          exact Or.inr ⟨files, rfl, (videosFor_error_iff files SCENARIOS).1 ⟨e, hv⟩⟩
        · intro _
          exact ⟨e, rfl⟩
      | ok videos =>
        simp only [hd, hv]
        constructor
        · intro ⟨e, he⟩
          cases he
        · intro h
          rcases h with h | ⟨files', hf', sc, hsc, hnone⟩
          · cases h
          · injection hf' with hf'
            subst hf'
            obtain ⟨e, he⟩ := (videosFor_error_iff files SCENARIOS).2 ⟨sc, hsc, hnone⟩
            rw [he] at hv
            cases hv
  · unfold dictGet
    have hmap : ∀ (o : Option (String × List (String × String))),
        (o.map (fun x => x.2)).isSome = o.isSome := by
      intro o
      cases o <;> rfl
    rw [hmap, List.find?_isSome]
    constructor
    · intro ⟨x, hx, hbeq⟩
      have hx1 : x.1 = cond := by simpa using hbeq
      subst hx1
      simp only [VIDEO_FILES, List.mem_cons, List.mem_singleton] at hx
      rcases hx with h | h | h
      · subst h
        decide
      · subst h
        decide
      · cases h
    · intro hmem
      simp only [VIDEO_CONDITIONS, List.mem_cons, List.mem_singleton] at hmem
      rcases hmem with h | h | h
      · subst h
        exact ⟨VIDEO_FILES.get ⟨0, by decide⟩, by decide, by decide⟩
      · subst h
        exact ⟨VIDEO_FILES.get ⟨1, by decide⟩, by decide, by decide⟩
      · cases h
  · intro db₂ e
    unfold create_video_sequence_for_participant
    cases hd : dictGet VIDEO_FILES cond with
    | none => simp [hd]
    | some files =>
      cases hv : videosFor files SCENARIOS with
      | error e' => simp [hd, hv]
      | ok videos => simp [hd, hv]

-- Toolkit for the export projections (C9)

lemma isEmpty_map {α β : Type} (f : α → β) (l : List α) :
    (l.map f).isEmpty = l.isEmpty := by
  cases l <;> rfl

/-- Rewriting of the progress counters of every participant row. -/
def scrubP (fIdx fTot : Nat → Nat) (fComp : Bool → Bool) (p : Participant) : Participant :=
  { p with currentVideoIdx := fIdx p.currentVideoIdx,
           totalVideos := fTot p.totalVideos,
           completed := fComp p.completed }

/-- Rewriting of the media reference of a sequence row. -/
def scrubV (fFile : String → String) (v : SeqRow) : SeqRow :=
  { v with fileId := fFile v.fileId }

/-- Rewriting of the media reference of an answers row. -/
def scrubA (fFile : String → String) (a : AnsRow) : AnsRow :=
  { a with fileId := fFile a.fileId }

/-- Rewrites every media reference and every progress counter of the
database; the export projections that exclude those columns must be
invariant under it. -/
def scrubDb (fFile : String → String) (fIdx fTot : Nat → Nat) (fComp : Bool → Bool)
    (db : Db) : Db :=
  { db with participants := db.participants.map (scrubP fIdx fTot fComp),
            videoSeq := db.videoSeq.map (scrubV fFile),
            answers := db.answers.map (scrubA fFile) }

lemma scrubDb_answers (fFile : String → String) (fIdx fTot : Nat → Nat)
    (fComp : Bool → Bool) (db : Db) :
    (scrubDb fFile fIdx fTot fComp db).answers = db.answers.map (scrubA fFile) := rfl

lemma scrubDb_videoSeq (fFile : String → String) (fIdx fTot : Nat → Nat)
    (fComp : Bool → Bool) (db : Db) :
    (scrubDb fFile fIdx fTot fComp db).videoSeq = db.videoSeq.map (scrubV fFile) := rfl

lemma scrubDb_participants (fFile : String → String) (fIdx fTot : Nat → Nat)
    (fComp : Bool → Bool) (db : Db) :
    (scrubDb fFile fIdx fTot fComp db).participants =
      db.participants.map (scrubP fIdx fTot fComp) := rfl

lemma joinAnswers_scrub (fFile : String → String) (fIdx fTot : Nat → Nat)
    (fComp : Bool → Bool) (db : Db) (p : Participant) (v : SeqRow) :
    joinAnswers (scrubDb fFile fIdx fTot fComp db) (scrubP fIdx fTot fComp p)
      (scrubV fFile v) = joinAnswers db p v := by
  unfold joinAnswers
  have hpred : (fun (a : AnsRow) =>
      a.userId == (scrubP fIdx fTot fComp p).userId &&
      a.position == (scrubV fFile v).position) ∘ (scrubA fFile) =
      (fun (a : AnsRow) => a.userId == p.userId && a.position == v.position) := by
    funext a
    rfl
  simp only [scrubDb_answers, List.filter_map, hpred, isEmpty_map]
  by_cases h : (db.answers.filter
      (fun a => a.userId == p.userId && a.position == v.position)).isEmpty
  · simp only [h, if_true]
    rfl
  · simp only [h, if_false, List.map_map]
    apply List.map_congr_left
    intro a _
    rfl

lemma joinSeq_scrub (fFile : String → String) (fIdx fTot : Nat → Nat)
    (fComp : Bool → Bool) (db : Db) (p : Participant) :
    joinSeq (scrubDb fFile fIdx fTot fComp db) (scrubP fIdx fTot fComp p) =
      joinSeq db p := by
  unfold joinSeq
  have hpred : (fun (v : SeqRow) => v.userId == (scrubP fIdx fTot fComp p).userId) ∘
      (scrubV fFile) = (fun (v : SeqRow) => v.userId == p.userId) := by
    funext v
    rfl
  simp only [scrubDb_videoSeq, List.filter_map, hpred, isEmpty_map]
  by_cases h : (db.videoSeq.filter (fun v => v.userId == p.userId)).isEmpty
  · simp only [h, if_true]
    rfl
  · simp only [h, if_false, List.flatMap_map]
    have hfun : (fun v => joinAnswers (scrubDb fFile fIdx fTot fComp db)
        (scrubP fIdx fTot fComp p) (scrubV fFile v)) = joinAnswers db p := by
      funext v
      exact joinAnswers_scrub fFile fIdx fTot fComp db p v
    rw [hfun]
    simp

lemma load_answers_scrub (fFile : String → String) (fIdx fTot : Nat → Nat)
    (fComp : Bool → Bool) (db : Db) :
    load_answers (scrubDb fFile fIdx fTot fComp db) = load_answers db := by
  unfold load_answers
  rw [scrubDb_participants, List.flatMap_map]
  have hfun : (fun p => joinSeq (scrubDb fFile fIdx fTot fComp db)
      (scrubP fIdx fTot fComp p)) = joinSeq db := by
    funext p
    exact joinSeq_scrub fFile fIdx fTot fComp db p
  rw [hfun]

lemma load_participants_scrub (fFile : String → String) (fIdx fTot : Nat → Nat)
    (db : Db) :
    load_participants (scrubDb fFile fIdx fTot (fun b => b) db) =
      load_participants db := by
  unfold load_participants
  rw [scrubDb_participants, List.map_map]
  apply List.map_congr_left
  intro p _
  rfl

lemma joinAnswers_eq (db : Db) (p : Participant) (v : SeqRow) :
    joinAnswers db p v =
      if (db.answers.filter
          (fun a => a.userId == p.userId && a.position == v.position)).isEmpty
      then [mkAnsExportRow p (some v) none]
      else (db.answers.filter
          (fun a => a.userId == p.userId && a.position == v.position)).map
        (fun a => mkAnsExportRow p (some v) (some a)) := rfl

lemma joinSeq_eq (db : Db) (p : Participant) :
    joinSeq db p =
      if (db.videoSeq.filter (fun v => v.userId == p.userId)).isEmpty
      then [mkAnsExportRow p none none]
      else (db.videoSeq.filter (fun v => v.userId == p.userId)).flatMap
        (joinAnswers db p) := rfl

/-- Every participant contributes at least one row to the answers sheet,
carrying its user id. -/
lemma joinSeq_has_row (db : Db) (p : Participant) :
    ∃ r ∈ joinSeq db p, r.user_id = p.userId := by
  rw [joinSeq_eq]
  by_cases h : (db.videoSeq.filter (fun v => v.userId == p.userId)).isEmpty
  · rw [if_pos h]
    exact ⟨mkAnsExportRow p none none, List.mem_singleton.2 rfl, rfl⟩
  · rw [if_neg h]
    obtain ⟨v, hvmem⟩ : ∃ v, v ∈ db.videoSeq.filter (fun v => v.userId == p.userId) := by
      cases hv : db.videoSeq.filter (fun v => v.userId == p.userId) with
      | nil => rw [hv] at h; simp at h
      | cons v rest => exact ⟨v, by simp [hv]⟩
    have hja : ∃ r ∈ joinAnswers db p v, r.user_id = p.userId := by
      rw [joinAnswers_eq]
      by_cases ha : (db.answers.filter
          (fun a => a.userId == p.userId && a.position == v.position)).isEmpty
      · rw [if_pos ha]
        exact ⟨mkAnsExportRow p (some v) none, List.mem_singleton.2 rfl, rfl⟩
      · rw [if_neg ha]
        obtain ⟨a, hamem⟩ : ∃ a, a ∈ db.answers.filter
            (fun a => a.userId == p.userId && a.position == v.position) := by
          cases hal : db.answers.filter
              (fun a => a.userId == p.userId && a.position == v.position) with
          | nil => rw [hal] at ha; simp at ha
          | cons a arest => exact ⟨a, by simp [hal]⟩
        exact ⟨mkAnsExportRow p (some v) (some a),
          List.mem_map_of_mem _ hamem, rfl⟩
    obtain ⟨r, hrmem, hruid⟩ := hja
    exact ⟨r, List.mem_flatMap.2 ⟨v, hvmem, hrmem⟩, hruid⟩

def c9Db1 : Db := ⟨[], [bugParticipant], [], []⟩
def c9Db2 : Db := ⟨[], [{ bugParticipant with currentVideoIdx := 2 }], [], []⟩

/-- C9 counterexample: two stores differing only in a participant's current
position index produce identical participants sheets — `load_participants`
omits `current_video_idx` (and `total_videos`), so the participants
projection does not contain all Participant fields as the claim states. -/
theorem C9_counterexample_participants_projection :
    load_participants c9Db1 = load_participants c9Db2 ∧
    c9Db1.participants.map Participant.currentVideoIdx ≠
      c9Db2.participants.map Participant.currentVideoIdx := by
  constructor <;> decide

/-- C9 (amended): the participants sheet carries every Participant field
except the raw progress counters `current_video_idx` and `total_videos`
(it is invariant under rewriting them); the answers sheet left-joins
Participant fields with VideoAssignment and Answers by user_id+position, so
every participant appears (with nulls when unanswered), and it carries no
media reference and no raw progress counter (it is invariant under
rewriting all of `file_id`, `current_video_idx`, `total_videos`,
`completed`). -/
theorem C9_export_projections :
    (∀ db p, p ∈ db.participants →
      ∃ r ∈ load_participants db,
        r.user_id = p.userId ∧ r.tg_username = p.tgUsername ∧
        r.first_name = p.firstName ∧ r.participant_name = p.participantName ∧
        r.gender = p.gender ∧ r.age = p.age ∧ r.condition = p.condition ∧
        r.completed = p.completed ∧ r.created_at = p.createdAt) ∧
    (∀ db fFile fIdx fTot,
      load_participants (scrubDb fFile fIdx fTot (fun b => b) db) =
        load_participants db) ∧
    (∀ db fFile fIdx fTot fComp,
      load_answers (scrubDb fFile fIdx fTot fComp db) = load_answers db) ∧
    (∀ db p, p ∈ db.participants → ∃ r ∈ load_answers db, r.user_id = p.userId) ∧
    (∀ db p, p ∈ db.participants →
      (db.videoSeq.filter (fun v => v.userId == p.userId)).isEmpty →
      mkAnsExportRow p none none ∈ load_answers db) ∧
    (∀ db p v a, p ∈ db.participants → v ∈ db.videoSeq → v.userId = p.userId →
      a ∈ db.answers → a.userId = p.userId → a.position = v.position →
      mkAnsExportRow p (some v) (some a) ∈ load_answers db) := by
  refine ⟨?_, ?_, ?_, ?_, ?_, ?_⟩
  · intro db p hp
    exact ⟨projParticipant p, List.mem_map_of_mem _ hp,
      rfl, rfl, rfl, rfl, rfl, rfl, rfl, rfl, rfl⟩
  · intro db fFile fIdx fTot
    exact load_participants_scrub fFile fIdx fTot db
  · intro db fFile fIdx fTot fComp
    exact load_answers_scrub fFile fIdx fTot fComp db
  · intro db p hp
    obtain ⟨r, hr, hru⟩ := joinSeq_has_row db p
    exact ⟨r, List.mem_flatMap.2 ⟨p, hp, hr⟩, hru⟩
  · intro db p hp hempty
    apply List.mem_flatMap.2
    refine ⟨p, hp, ?_⟩
    rw [joinSeq_eq, if_pos hempty]
    exact List.mem_singleton.2 rfl
  · intro db p v a hp hv hvu ha hau hap
    apply List.mem_flatMap.2
    refine ⟨p, hp, ?_⟩
    have hvmem : v ∈ db.videoSeq.filter (fun w => w.userId == p.userId) := by
      rw [List.mem_filter]
      exact ⟨hv, by simp [hvu]⟩
    have hne : ¬(db.videoSeq.filter (fun w => w.userId == p.userId)).isEmpty = true := by
      intro hx
      rw [List.isEmpty_iff] at hx
      rw [hx] at hvmem
      cases hvmem
    rw [joinSeq_eq, if_neg hne]
    apply List.mem_flatMap.2
    refine ⟨v, hvmem, ?_⟩
    have hamem : a ∈ db.answers.filter
        (fun b => b.userId == p.userId && b.position == v.position) := by
      rw [List.mem_filter]
      exact ⟨ha, by simp [hau, hap]⟩
    have hane : ¬(db.answers.filter
        (fun b => b.userId == p.userId && b.position == v.position)).isEmpty = true := by
      intro hx
      rw [List.isEmpty_iff] at hx
      rw [hx] at hamem
      cases hamem
    rw [joinAnswers_eq, if_neg hane]
    exact List.mem_map_of_mem _ hamem

/-- Witness database for C9: one participant mid-experiment with one
assignment row and one partially answered row. -/
def c9wP : Participant := { bugParticipant with gender := some "Женский", age := some 29 }
def c9wV : SeqRow := ⟨1, 0, "без", "Пицца", "fid0"⟩
def c9wA : AnsRow := ⟨1, 0, "Пицца", "fid0", some "описание", none, none, none⟩
def c9wDb : Db := ⟨[⟨1, "alex", "Alex"⟩], [c9wP], [c9wV], [c9wA]⟩

/-- Witness for C9 (amended) at the concrete store `c9wDb`. -/
theorem C9_export_projections_witness :
    (∃ r ∈ load_participants c9wDb,
      r.user_id = c9wP.userId ∧ r.tg_username = c9wP.tgUsername ∧
      r.first_name = c9wP.firstName ∧ r.participant_name = c9wP.participantName ∧
      r.gender = c9wP.gender ∧ r.age = c9wP.age ∧ r.condition = c9wP.condition ∧
      r.completed = c9wP.completed ∧ r.created_at = c9wP.createdAt) ∧
    (∃ r ∈ load_answers c9wDb, r.user_id = c9wP.userId) ∧
    mkAnsExportRow c9wP (some c9wV) (some c9wA) ∈ load_answers c9wDb :=
  ⟨C9_export_projections.1 c9wDb c9wP (by decide),
   C9_export_projections.2.2.2.1 c9wDb c9wP (by decide),
   C9_export_projections.2.2.2.2.2 c9wDb c9wP c9wV c9wA (by decide) (by decide)
     (by decide) (by decide) (by decide) (by decide)⟩

-- Branch equations for `handle_text` and projection lemmas

lemma cpApply_gender (tgU fN pn g : Option String) (a : Option Int)
    (c : Option String) (t : Option Nat) (p : Participant) :
    (cpApply tgU fN pn g a c t p).gender = g.or p.gender := rfl

lemma cpApply_age (tgU fN pn g : Option String) (a : Option Int)
    (c : Option String) (t : Option Nat) (p : Participant) :
    (cpApply tgU fN pn g a c t p).age = a.or p.age := rfl

lemma cpApply_progress (tgU fN pn g : Option String) (a : Option Int)
    (c : Option String) (t : Option Nat) (p : Participant) :
    (cpApply tgU fN pn g a c t p).currentVideoIdx = p.currentVideoIdx ∧
    (cpApply tgU fN pn g a c t p).completed = p.completed ∧
    (cpApply tgU fN pn g a c t p).totalVideos = t.getD p.totalVideos :=
  ⟨rfl, rfl, rfl⟩

lemma get_participant_congr {db db' : Db} (h : db'.participants = db.participants)
    (uid : Nat) : get_participant db' uid = get_participant db uid := by
  unfold get_participant
  rw [h]

lemma handle_text_gender_eq (u : TgUser) (text cond : String)
    (shuffle : List (String × String) → List (String × String))
    (s : Session) (db : Db) (hs : s.stage = some "ask_gender") :
    handle_text u text cond shuffle s db =
      Except.ok ({ s with gender := some (pyStrip text), stage := some "ask_age" },
        create_participant u.id (some (u.username.getD "")) (some (u.firstName.getD ""))
          (some (pyStrip text)) none none none none db,
        [Reply.askAge]) := by
  unfold handle_text
  rw [hs]
  rfl

lemma handle_text_age_eq (u : TgUser) (text cond : String)
    (shuffle : List (String × String) → List (String × String))
    (s : Session) (db : Db) (hs : s.stage = some "ask_age") :
    handle_text u text cond shuffle s db =
      (match ageParse (pyStrip text) with
       | none => Except.ok (s,
          create_participant u.id (some (u.username.getD "")) (some (u.firstName.getD ""))
            (some (pyStrip text)) none none none none db,
          [Reply.ageReprompt])
       | some age => ht_age_ok u cond shuffle s
          (create_participant u.id (some (u.username.getD "")) (some (u.firstName.getD ""))
            (some (pyStrip text)) none none none none db) age) := by
  unfold handle_text
  rw [hs]
  rfl

lemma handle_text_video_eq (u : TgUser) (text cond : String)
    (shuffle : List (String × String) → List (String × String))
    (s : Session) (db : Db) (stage : String) (hs : s.stage = some stage)
    (h1 : (stage == "ask_name") = false) (h2 : (stage == "ask_gender") = false)
    (h3 : (stage == "ask_age") = false) :
    handle_text u text cond shuffle s db =
      Except.ok (ht_video_block u stage (pyStrip text) s
        (create_participant u.id (some (u.username.getD "")) (some (u.firstName.getD ""))
          (some (pyStrip text)) none none none none db)) := by
  unfold handle_text
  rw [hs]
  simp only [h1, h2, h3, Bool.false_eq_true, if_false]

/-- C10: a free-text answer to the gender question is recorded only in the
ephemeral session (stored gender column unchanged — still null for a fresh
participant); the gender reaches durable storage only when a valid age is
subsequently submitted in the same session. -/
theorem C10_gender_deferred_persistence :
    (∀ u text cond shuffle s db p, s.stage = some "ask_gender" →
      get_participant db u.id = some p →
      ∃ r, handle_text u text cond shuffle s db = Except.ok r ∧
        r.1.gender = some (pyStrip text) ∧ r.1.stage = some "ask_age" ∧
        ∃ p', get_participant r.2.1 u.id = some p' ∧ p'.gender = p.gender) ∧
    (∀ u text cond shuffle s db, s.stage = some "ask_gender" →
      get_participant db u.id = none →
      ∃ r, handle_text u text cond shuffle s db = Except.ok r ∧
        ∃ p', get_participant r.2.1 u.id = some p' ∧ p'.gender = none) ∧
    (∀ u text cond shuffle s db a, s.stage = some "ask_age" →
      ageParse (pyStrip text) = some a → cond ∈ VIDEO_CONDITIONS →
      (∀ l, (shuffle l).Perm l) →
      ∃ r, handle_text u text cond shuffle s db = Except.ok r ∧
        ∃ p', get_participant r.2.1 u.id = some p' ∧
          p'.gender = some (pyStrip (s.gender.getD "")) ∧ p'.age = some a) := by
  refine ⟨?_, ?_, ?_⟩
  · intro u text cond shuffle s db p hs hp
    rw [handle_text_gender_eq u text cond shuffle s db hs]
    refine ⟨_, rfl, rfl, rfl, ?_⟩
    rw [get_participant_create_self]
    refine ⟨_, rfl, ?_⟩
    rw [cpApply_gender, Option.none_or, hp]
    rfl
  · intro u text cond shuffle s db hs hp
    rw [handle_text_gender_eq u text cond shuffle s db hs]
    refine ⟨_, rfl, ?_⟩
    rw [get_participant_create_self]
    refine ⟨_, rfl, ?_⟩
    rw [cpApply_gender, Option.none_or, hp]
    rfl
  · intro u text cond shuffle s db a hs hpa hc hsh
    rw [handle_text_age_eq u text cond shuffle s db hs]
    simp only [hpa]
    obtain ⟨db4, hok, hu4, hp4, ha4, _, _, _, _⟩ :=
      cvs_spec u.id cond shuffle
        (create_participant u.id u.username u.firstName
          none none none (some cond) (some SCENARIOS.length)
          (create_participant u.id u.username u.firstName
            (some (pyStrip (s.participantName.getD "")))
            (some (pyStrip (s.gender.getD ""))) (some a) none none
            (create_participant u.id (some (u.username.getD ""))
              (some (u.firstName.getD "")) (some (pyStrip text))
              none none none none db))) hc hsh
    have hht : ht_age_ok u cond shuffle s
        (create_participant u.id (some (u.username.getD ""))
          (some (u.firstName.getD "")) (some (pyStrip text))
          none none none none db) a =
        Except.ok ((continue_experiment u.id { s with stage := none } db4).1, db4,
          Reply.intakeDone ::
            (continue_experiment u.id { s with stage := none } db4).2) := by
      simp only [ht_age_ok]
      rw [hok]
    rw [hht]
    refine ⟨_, rfl, ?_⟩
    rw [get_participant_congr hp4, get_participant_create_self,
      get_participant_create_self]
    refine ⟨_, rfl, ?_, ?_⟩
    · rw [cpApply_gender, Option.none_or, Option.getD_some, cpApply_gender]
      rfl
    · rw [cpApply_age, Option.none_or, Option.getD_some, cpApply_age]
      rfl

/-- C6: a rating callback outside [1,10] is rejected inside the handler's
own exception guard with no store change at all, and a free-text message
arriving while a rating is expected leaves the answers table, the position
and the completed flag unchanged; neither crashes. -/
theorem C6_out_of_range_rating_rejected :
    (∀ u score s db, score < 1 ∨ 10 < score →
      handle_likert u score s db = ⟨s, db, [Reply.unexpectedError], []⟩) ∧
    (∀ u text cond shuffle s db p, s.stage = some "expect_rating" →
      get_participant db u.id = some p →
      ∃ r, handle_text u text cond shuffle s db = Except.ok r ∧
        r.2.1.answers = db.answers ∧
        ∃ p', get_participant r.2.1 u.id = some p' ∧
          p'.currentVideoIdx = p.currentVideoIdx ∧ p'.completed = p.completed) := by
  constructor
  · intro u score s db h
    have hb : (score < 1 || 10 < score) = true := by
      rcases h with h | h <;> simp [h]
    unfold handle_likert
    rw [if_pos hb]
  · intro u text cond shuffle s db p hs hp
    rw [handle_text_video_eq u text cond shuffle s db "expect_rating" hs
      (by decide) (by decide) (by decide)]
    have hgp := get_participant_create_self u.id (some (u.username.getD ""))
      (some (u.firstName.getD "")) (some (pyStrip text)) none none none none db
    rw [hp] at hgp
    simp only [Option.getD_some] at hgp
    have hans := (create_participant_others u.id (some (u.username.getD ""))
      (some (u.firstName.getD "")) (some (pyStrip text)) none none none none db).2.2
    have hdb : (ht_video_block u "expect_rating" (pyStrip text) s
        (create_participant u.id (some (u.username.getD ""))
          (some (u.firstName.getD "")) (some (pyStrip text)) none none none none db)).2.1 =
        create_participant u.id (some (u.username.getD ""))
          (some (u.firstName.getD "")) (some (pyStrip text)) none none none none db := by
      unfold ht_video_block
      simp only [hgp]
      by_cases hc : (cpApply (some (u.username.getD "")) (some (u.firstName.getD ""))
          (some (pyStrip text)) none none none none p).completed
      · rw [if_pos hc]
      · rw [if_neg hc]
        cases hv : get_video_by_position
            (create_participant u.id (some (u.username.getD ""))
              (some (u.firstName.getD "")) (some (pyStrip text)) none none none none db)
            u.id (cpApply (some (u.username.getD "")) (some (u.firstName.getD ""))
              (some (pyStrip text)) none none none none p).currentVideoIdx with
        | none => rfl
        | some v =>
          simp only [show (("expect_rating" : String) == "expect_description") = false by decide,
            show (("expect_rating" : String) == "expect_adv_behavior") = false by decide,
            show (("expect_rating" : String) == "expect_adv_choice") = false by decide,
            show (("expect_rating" : String) == "expect_rating") = true by decide,
            Bool.false_eq_true, if_false, if_true]
    refine ⟨_, rfl, ?_, ?_⟩
    · rw [hdb, hans]
    · refine ⟨cpApply (some (u.username.getD "")) (some (u.firstName.getD ""))
        (some (pyStrip text)) none none none none p, ?_, rfl, rfl⟩
      rw [hdb]
      exact hgp

/-- Witness for C6 at score 11 and at a concrete free-text message during
`expect_rating`. -/
theorem C6_out_of_range_rating_rejected_witness :
    handle_likert bugUser 11 ⟨some "expect_rating", none, none⟩ bugDb =
      ⟨⟨some "expect_rating", none, none⟩, bugDb, [Reply.unexpectedError], []⟩ ∧
    (∃ r, handle_text bugUser "семь" "без" id ⟨some "expect_rating", none, none⟩ bugDb =
        Except.ok r ∧
      r.2.1.answers = bugDb.answers ∧
      ∃ p', get_participant r.2.1 bugUser.id = some p' ∧
        p'.currentVideoIdx = bugParticipant.currentVideoIdx ∧
        p'.completed = bugParticipant.completed) :=
  ⟨C6_out_of_range_rating_rejected.1 bugUser 11 ⟨some "expect_rating", none, none⟩ bugDb
      (Or.inr (by decide)),
   C6_out_of_range_rating_rejected.2 bugUser "семь" "без" id
      ⟨some "expect_rating", none, none⟩ bugDb bugParticipant rfl (by decide)⟩

/-- Witness for C10: the gender "женский" sent as text is only in the
session, and submitting age 29 afterwards persists the session gender. -/
theorem C10_gender_deferred_persistence_witness :
    (∃ r, handle_text bugUser "женский" "без" id
        ⟨some "ask_gender", some "Alex", none⟩ bugDb = Except.ok r ∧
      r.1.gender = some (pyStrip "женский") ∧ r.1.stage = some "ask_age" ∧
      ∃ p', get_participant r.2.1 bugUser.id = some p' ∧
        p'.gender = bugParticipant.gender) ∧
    (∃ r, handle_text bugUser "29" "без" id
        ⟨some "ask_age", some "Alex", some "Женский"⟩ bugDb = Except.ok r ∧
      ∃ p', get_participant r.2.1 bugUser.id = some p' ∧
        p'.gender = some (pyStrip ((⟨some "ask_age", some "Alex", some "Женский"⟩ :
          Session).gender.getD "")) ∧
        p'.age = some 29) :=
  ⟨C10_gender_deferred_persistence.1 bugUser "женский" "без" id
      ⟨some "ask_gender", some "Alex", none⟩ bugDb bugParticipant rfl (by decide),
   C10_gender_deferred_persistence.2.2 bugUser "29" "без" id
      ⟨some "ask_age", some "Alex", some "Женский"⟩ bugDb 29 rfl (by decide)
      (by decide) (fun l => List.Perm.refl l)⟩

-- ---------------------------------------------------------------------------
-- Progress invariant and monotonicity (C2, C3)
-- ---------------------------------------------------------------------------

/-- The per-row progress invariant of the spec: position bounded by the
total, and completion only at the end.  (The total is 4 everywhere: the
schema default and the only value ever written, `len(SCENARIOS)`.) -/
def PartOk (p : Participant) : Prop :=
  p.totalVideos = 4 ∧ p.currentVideoIdx ≤ p.totalVideos ∧
    (p.completed = true → p.currentVideoIdx = p.totalVideos)

/-- The store-wide invariant: every participant record satisfies `PartOk`
and every assignment row sits at a position below 4. -/
def DbInv (db : Db) : Prop :=
  (∀ uid p, get_participant db uid = some p → PartOk p) ∧
  (∀ v ∈ db.videoSeq, v.position < 4)

/-- Positions never decrease and completion is never revoked. -/
def ProgressMono (db db' : Db) : Prop :=
  ∀ uid p, get_participant db uid = some p →
    ∃ p', get_participant db' uid = some p' ∧
      p.currentVideoIdx ≤ p'.currentVideoIdx ∧
      (p.completed = true → p'.completed = true)

/-- A completed participant stays completed (needs no invariant). -/
def KeepDone (db db' : Db) : Prop :=
  ∀ uid p, get_participant db uid = some p → p.completed = true →
    ∃ p', get_participant db' uid = some p' ∧ p'.completed = true

/-- What one processed event must guarantee. -/
def StepSafe (db db' : Db) : Prop :=
  (DbInv db → DbInv db' ∧ ProgressMono db db') ∧ KeepDone db db'

lemma stepSafe_refl (db : Db) : StepSafe db db :=
  ⟨fun h => ⟨h, fun _ p hp => ⟨p, hp, le_refl _, fun hc => hc⟩⟩,
   fun _ p hp hc => ⟨p, hp, hc⟩⟩

lemma stepSafe_trans {db db₂ db₃ : Db} (h1 : StepSafe db db₂) (h2 : StepSafe db₂ db₃) :
    StepSafe db db₃ := by
  refine ⟨fun hInv => ?_, fun uid p hp hc => ?_⟩
  · obtain ⟨hInv2, hm1⟩ := h1.1 hInv
    obtain ⟨hInv3, hm2⟩ := h2.1 hInv2
    refine ⟨hInv3, fun uid p hp => ?_⟩
    obtain ⟨p2, hp2, hle2, hc2⟩ := hm1 uid p hp
    obtain ⟨p3, hp3, hle3, hc3⟩ := hm2 uid p2 hp2
    exact ⟨p3, hp3, le_trans hle2 hle3, fun hc => hc3 (hc2 hc)⟩
  · obtain ⟨p2, hp2, hc2⟩ := h1.2 uid p hp hc
    obtain ⟨p3, hp3, hc3⟩ := h2.2 uid p2 hp2 hc2
    exact ⟨p3, hp3, hc3⟩

/-- An operation leaving both the participants and the sequence tables
untouched is safe. -/
lemma stepSafe_tables {db db' : Db} (hps : db'.participants = db.participants)
    (hvs : db'.videoSeq = db.videoSeq) : StepSafe db db' := by
  constructor
  · intro hInv
    refine ⟨⟨?_, ?_⟩, ?_⟩
    · intro uid p hgp
      rw [get_participant_congr hps] at hgp
      exact hInv.1 uid p hgp
    · intro v hvm
      rw [hvs] at hvm
      exact hInv.2 v hvm
    · intro uid p hgp
      exact ⟨p, by rw [get_participant_congr hps]; exact hgp, le_refl _, fun hc => hc⟩
  · intro uid p hgp hc
    exact ⟨p, by rw [get_participant_congr hps]; exact hgp, hc⟩

lemma partOk_fresh (uid : Nat) (tgU fN : String) :
    PartOk (freshParticipant uid tgU fN) := by
  refine ⟨rfl, ?_, ?_⟩ <;> simp [freshParticipant]

lemma partOk_cpApply (tgU fN pn g : Option String) (a : Option Int)
    (c : Option String) (t : Option Nat) (q : Participant)
    (hq : PartOk q) (ht : t = none ∨ t = some 4) :
    PartOk (cpApply tgU fN pn g a c t q) := by
  obtain ⟨h1, h2, h3⟩ := hq
  rcases ht with ht | ht <;> subst ht
  · exact ⟨h1, h2, h3⟩
  · refine ⟨rfl, ?_, ?_⟩
    · show q.currentVideoIdx ≤ (4 : Nat)
      rw [← h1]
      exact h2
    · intro hc
      show q.currentVideoIdx = (4 : Nat)
      rw [← h1]
      exact h3 hc

lemma stepSafe_create (uid : Nat) (tgU fN pn g : Option String) (a : Option Int)
    (c : Option String) (t : Option Nat) (db : Db)
    (ht : t = none ∨ t = some 4) :
    StepSafe db (create_participant uid tgU fN pn g a c t db) := by
  have hvseq := (create_participant_others uid tgU fN pn g a c t db).2.1
  constructor
  · intro hInv
    refine ⟨⟨?_, ?_⟩, ?_⟩
    · intro uid' p' hp'
      by_cases h : uid' = uid
      · subst h
        rw [get_participant_create_self] at hp'
        injection hp' with hp'
        subst hp'
        cases hbase : get_participant db uid' with
        | some q =>
          exact partOk_cpApply tgU fN pn g a c t q (hInv.1 uid' q hbase) ht
        | none =>
          exact partOk_cpApply tgU fN pn g a c t _ (partOk_fresh _ _ _) ht
      · rw [get_participant_create_other uid uid' tgU fN pn g a c t db h] at hp'
        exact hInv.1 uid' p' hp'
    · intro v hvm
      rw [hvseq] at hvm
      exact hInv.2 v hvm
    · intro uid' p hp
      by_cases h : uid' = uid
      · subst h
        rw [get_participant_create_self, hp]
        refine ⟨_, rfl, ?_, ?_⟩
        · exact le_of_eq (cpApply_progress tgU fN pn g a c t _).1.symm
        · intro hc
          rw [(cpApply_progress tgU fN pn g a c t _).2.1]
          simpa using hc
      · rw [get_participant_create_other uid uid' tgU fN pn g a c t db h]
        exact ⟨p, hp, le_refl _, fun hc => hc⟩
  · intro uid' p hp hc
    by_cases h : uid' = uid
    · subst h
      rw [get_participant_create_self, hp]
      refine ⟨_, rfl, ?_⟩
      rw [(cpApply_progress tgU fN pn g a c t _).2.1]
      simpa using hc
    · rw [get_participant_create_other uid uid' tgU fN pn g a c t db h]
      exact ⟨p, hp, hc⟩

lemma videosFor_length (files : List (String × String)) :
    ∀ (l : List String) (vs : List (String × String)),
      videosFor files l = Except.ok vs → vs.length = l.length := by
  intro l
  induction l with
  | nil =>
    intro vs h
    unfold videosFor at h
    injection h with h
    subst h
    rfl
  | cons sc rest ih =>
    intro vs h
    unfold videosFor at h
    cases hd : dictGet files sc with
    | none => rw [hd] at h; cases h
    | some fid =>
      rw [hd] at h
      cases hv : videosFor files rest with
      | error e => rw [hv] at h; simp [Except.map] at h
      | ok vs' =>
        rw [hv] at h
        simp only [Except.map] at h
        injection h with h
        subst h
        simp [ih vs' hv]

lemma cvs_ok_shape {uid : Nat} {cond : String}
    {shuffle : List (String × String) → List (String × String)} {db db' : Db}
    (hok : create_video_sequence_for_participant uid cond shuffle db = Except.ok db')
    (hsh : ∀ l, (shuffle l).Perm l) :
    db'.participants = db.participants ∧
    (∀ v ∈ db'.videoSeq, v ∈ db.videoSeq ∨ v.position < 4) := by
  unfold create_video_sequence_for_participant at hok
  cases hd : dictGet VIDEO_FILES cond with
  | none => simp [hd] at hok
  | some files =>
    simp only [hd] at hok
    cases hv : videosFor files SCENARIOS with
    | error e => simp [hv] at hok
    | ok videos =>
      simp only [hv] at hok
      injection hok with hok
      subst hok
      refine ⟨rfl, ?_⟩
      intro v hvm
      rcases List.mem_append.1 hvm with hk | hn
      · exact Or.inl (List.mem_filter.1 hk).1
      · right
        obtain ⟨pv, hpv, hveq⟩ := List.mem_map.1 hn
        subst hveq
        obtain ⟨i, x⟩ := pv
        have hi := (List.mem_enum hpv).1
        have hlen : (shuffle videos).length = 4 := by
          rw [(hsh videos).length_eq, videosFor_length files SCENARIOS videos hv]
          rfl
      
        show i < 4
        rw [hlen] at hi
        exact hi

lemma stepSafe_cvs {uid : Nat} {cond : String}
    {shuffle : List (String × String) → List (String × String)} {db db' : Db}
    (hok : create_video_sequence_for_participant uid cond shuffle db = Except.ok db')
    (hsh : ∀ l, (shuffle l).Perm l) :
    StepSafe db db' := by
  obtain ⟨hps, hv4⟩ := cvs_ok_shape hok hsh
  constructor
  · intro hInv
    refine ⟨⟨?_, ?_⟩, ?_⟩
    · intro uid' p hgp
      rw [get_participant_congr hps] at hgp
      exact hInv.1 uid' p hgp
    · intro v hvm
      rcases hv4 v hvm with hin | hlt
      · exact hInv.2 v hin
      · exact hlt
    · intro uid' p hgp
      exact ⟨p, by rw [get_participant_congr hps]; exact hgp, le_refl _, fun hc => hc⟩
  · intro uid' p hgp hc
    exact ⟨p, by rw [get_participant_congr hps]; exact hgp, hc⟩

lemma get_video_row {db : Db} {uid pos : Nat} {v : VideoInfo}
    (h : get_video_by_position db uid pos = some v) :
    ∃ r ∈ db.videoSeq, r.userId = uid ∧ r.position = pos := by
  unfold get_video_by_position at h
  cases hf : db.videoSeq.find? (fun w => w.userId == uid && w.position == pos) with
  | none => rw [hf] at h; cases h
  | some r =>
    have hmem := List.mem_of_find?_eq_some hf
    have hpred := List.find?_some hf
    simp only [Bool.and_eq_true, beq_iff_eq] at hpred
    exact ⟨r, hmem, hpred.1, hpred.2⟩

/-- Safety of the single atomic progress write of the completion branch of
`handle_likert`. -/
lemma stepSafe_upp_likert (uid : Nat) (db1 : Db) (p : Participant)
    (c : Option Bool) (hgp1 : get_participant db1 uid = some p)
    (hcf : p.completed = false)
    (hrow : ∃ r ∈ db1.videoSeq, r.userId = uid ∧ r.position = p.currentVideoIdx)
    (hc4 : c = none ∨ (c = some true ∧ p.totalVideos ≤ p.currentVideoIdx + 1)) :
    StepSafe db1 (update_participant_progress uid (some (p.currentVideoIdx + 1)) c db1) := by
  constructor
  · intro hInv
    have hp4 : p.totalVideos = 4 := (hInv.1 uid p hgp1).1
    obtain ⟨r, hrmem, hruid, hrpos⟩ := hrow
    have hidx : p.currentVideoIdx < 4 := by
      have := hInv.2 r hrmem
      rw [hrpos] at this
      exact this
    refine ⟨⟨?_, ?_⟩, ?_⟩
    · intro uid' q hq
      by_cases h : uid' = uid
      · subst h
        rw [get_participant_upp_self uid' _ c db1 p hgp1] at hq
        injection hq with hq
        subst hq
        rcases hc4 with hc | ⟨hc, htot⟩ <;> subst hc
        · refine ⟨hp4, ?_, ?_⟩
          · show p.currentVideoIdx + 1 ≤ p.totalVideos
            omega
          · intro hcomp
            show p.currentVideoIdx + 1 = p.totalVideos
            simp only [Option.getD_none] at hcomp
            rw [hcf] at hcomp
            cases hcomp
        · refine ⟨hp4, ?_, ?_⟩
          · show p.currentVideoIdx + 1 ≤ p.totalVideos
            omega
          · intro _
            show p.currentVideoIdx + 1 = p.totalVideos
            omega
      · rw [get_participant_upp_other uid uid' _ c db1 h] at hq
        exact hInv.1 uid' q hq
    · intro v hvm
      rw [(upp_others uid (some (p.currentVideoIdx + 1)) c db1).2.1] at hvm
      exact hInv.2 v hvm
    · intro uid' q hq
      by_cases h : uid' = uid
      · subst h
        rw [hgp1] at hq
        injection hq with hq
        subst hq
        rw [get_participant_upp_self uid' _ c db1 p hgp1]
        refine ⟨_, rfl, ?_, ?_⟩
        · show p.currentVideoIdx ≤ p.currentVideoIdx + 1
          omega
        · intro hcomp
          rw [hcf] at hcomp
          cases hcomp
      · rw [get_participant_upp_other uid uid' _ c db1 h]
        exact ⟨q, hq, le_refl _, fun hcm => hcm⟩
  · intro uid' q hq hcomp
    by_cases h : uid' = uid
    · subst h
      rw [hgp1] at hq
      injection hq with hq
      subst hq
      rw [hcf] at hcomp
      cases hcomp
    · rw [get_participant_upp_other uid uid' _ c db1 h]
      exact ⟨q, hq, hcomp⟩

lemma handle_likert_stepSafe (u : TgUser) (score : Int) (s : Session) (db : Db) :
    StepSafe db (handle_likert u score s db).db := by
  unfold handle_likert
  by_cases hb : (score < 1 || 10 < score) = true
  · rw [if_pos hb]
    exact stepSafe_refl db
  · rw [if_neg hb]
    cases hgp : get_participant db u.id with
    | none => exact stepSafe_refl db
    | some p =>
      dsimp only
      by_cases hc : p.completed
      · rw [if_pos hc]
        exact stepSafe_refl db
      · rw [if_neg hc]
        cases hv : get_video_by_position db u.id p.currentVideoIdx with
        | none => exact stepSafe_refl db
        | some v =>
          dsimp only
          have hup := upsert_answer_others u.id p.currentVideoIdx v.scenario v.fileId
            (FieldWrite.scenario_rating score) db
          have hs1 : StepSafe db (upsert_answer_field u.id p.currentVideoIdx
              v.scenario v.fileId (FieldWrite.scenario_rating score) db) :=
            stepSafe_tables hup.2.1 hup.2.2
          have hgp1 : get_participant (upsert_answer_field u.id p.currentVideoIdx
              v.scenario v.fileId (FieldWrite.scenario_rating score) db) u.id = some p := by
            rw [get_participant_congr hup.2.1]
            exact hgp
          have hrow : ∃ r ∈ (upsert_answer_field u.id p.currentVideoIdx
              v.scenario v.fileId (FieldWrite.scenario_rating score) db).videoSeq,
              r.userId = u.id ∧ r.position = p.currentVideoIdx := by
            rw [hup.2.2]
            exact get_video_row hv
          have hcf : p.completed = false := by
            cases hcc : p.completed
            · rfl
            · rw [hcc] at hc; cases hc rfl
          by_cases hlast : p.totalVideos ≤ p.currentVideoIdx + 1
          · rw [if_pos hlast]
            have hs2 := stepSafe_upp_likert u.id _ p (some true) hgp1 hcf hrow
              (Or.inr ⟨rfl, hlast⟩)
            cases hgp2 : get_participant (update_participant_progress u.id
                (some (p.currentVideoIdx + 1)) (some true)
                (upsert_answer_field u.id p.currentVideoIdx v.scenario v.fileId
                  (FieldWrite.scenario_rating score) db)) u.id with
            | some p2 => exact stepSafe_trans hs1 hs2
            | none => exact stepSafe_trans hs1 hs2
          · rw [if_neg hlast]
            exact stepSafe_trans hs1
              (stepSafe_upp_likert u.id _ p none hgp1 hcf hrow (Or.inl rfl))

lemma handle_gender_choice_stepSafe (u : TgUser) (data : String) (s : Session) (db : Db) :
    StepSafe db (handle_gender_choice u data s db).2.1 :=
  stepSafe_create u.id u.username u.firstName s.participantName
    (some (if containsSub data "female" then "Женский" else "Мужской")) none none none db
    (Or.inl rfl)

lemma start_db_eq (u : TgUser) (s : Session) (db : Db) :
    (start u s db).2.1 = ensure_user u.id (u.username.getD "") (u.firstName.getD "") db := by
  unfold start
  dsimp only
  cases hgp : get_participant (ensure_user u.id (u.username.getD "") (u.firstName.getD "") db) u.id with
  | none => rfl
  | some p =>
    dsimp only
    split_ifs <;> rfl

lemma start_stepSafe (u : TgUser) (s : Session) (db : Db) :
    StepSafe db (start u s db).2.1 := by
  rw [start_db_eq]
  have h := ensure_user_others u.id (u.username.getD "") (u.firstName.getD "") db
  exact stepSafe_tables h.1 h.2.1

lemma ht_video_block_stepSafe (u : TgUser) (stage text : String) (s : Session) (db1 : Db) :
    StepSafe db1 (ht_video_block u stage text s db1).2.1 := by
  unfold ht_video_block
  cases hgp : get_participant db1 u.id with
  | none => exact stepSafe_refl db1
  | some p =>
    dsimp only
    by_cases hc : p.completed = true
    · rw [if_pos hc]
      exact stepSafe_refl db1
    · rw [if_neg hc]
      cases hv : get_video_by_position db1 u.id p.currentVideoIdx with
      | none => exact stepSafe_refl db1
      | some v =>
        dsimp only
        by_cases hd1 : (stage == "expect_description") = true
        · rw [if_pos hd1]
          have h := upsert_answer_others u.id p.currentVideoIdx v.scenario v.fileId
            (FieldWrite.description text) db1
          exact stepSafe_tables h.2.1 h.2.2
        · rw [if_neg hd1]
          by_cases hd2 : (stage == "expect_adv_behavior") = true
          · rw [if_pos hd2]
            have h := upsert_answer_others u.id p.currentVideoIdx v.scenario v.fileId
              (FieldWrite.adv_behavior text) db1
            exact stepSafe_tables h.2.1 h.2.2
          · rw [if_neg hd2]
            by_cases hd3 : (stage == "expect_adv_choice") = true
            · rw [if_pos hd3]
              have h := upsert_answer_others u.id p.currentVideoIdx v.scenario v.fileId
                (FieldWrite.adv_choice text) db1
              exact stepSafe_tables h.2.1 h.2.2
            · rw [if_neg hd3]
              by_cases hd4 : (stage == "expect_rating") = true
              · rw [if_pos hd4]
                exact stepSafe_refl db1
              · rw [if_neg hd4]
                exact stepSafe_refl db1

lemma ht_age_ok_stepSafe (u : TgUser) (cond : String)
    (shuffle : List (String × String) → List (String × String))
    (s : Session) (db1 : Db) (age : Int)
    (hsh : ∀ l, (shuffle l).Perm l) :
    StepSafe db1 (htDb (ht_age_ok u cond shuffle s db1 age)) := by
  have hs2 : StepSafe db1 (create_participant u.id u.username u.firstName
      (some (pyStrip (s.participantName.getD "")))
      (some (pyStrip (s.gender.getD ""))) (some age) none none db1) :=
    stepSafe_create _ _ _ _ _ _ _ _ _ (Or.inl rfl)
  have hs3 : StepSafe (create_participant u.id u.username u.firstName
      (some (pyStrip (s.participantName.getD "")))
      (some (pyStrip (s.gender.getD ""))) (some age) none none db1)
      (create_participant u.id u.username u.firstName none none none
        (some cond) (some SCENARIOS.length)
        (create_participant u.id u.username u.firstName
          (some (pyStrip (s.participantName.getD "")))
          (some (pyStrip (s.gender.getD ""))) (some age) none none db1)) :=
    stepSafe_create _ _ _ _ _ _ _ _ _ (Or.inr rfl)
  unfold ht_age_ok
  dsimp only
  cases hcvs : create_video_sequence_for_participant u.id cond shuffle
      (create_participant u.id u.username u.firstName none none none
        (some cond) (some SCENARIOS.length)
        (create_participant u.id u.username u.firstName
          (some (pyStrip (s.participantName.getD "")))
          (some (pyStrip (s.gender.getD ""))) (some age) none none db1)) with
  | error e =>
    unfold htDb
    exact stepSafe_trans hs2 hs3
  | ok db4 =>
    unfold htDb
    exact stepSafe_trans (stepSafe_trans hs2 hs3) (stepSafe_cvs hcvs hsh)

lemma handle_text_stepSafe (u : TgUser) (text cond : String)
    (shuffle : List (String × String) → List (String × String))
    (s : Session) (db : Db) (hsh : ∀ l, (shuffle l).Perm l) :
    StepSafe db (htDb (handle_text u text cond shuffle s db)) := by
  unfold handle_text
  cases hss : s.stage with
  | none => exact stepSafe_refl db
  | some stage =>
    dsimp only
    by_cases h1 : (stage == "ask_name") = true
    · rw [if_pos h1]
      show StepSafe db (create_participant u.id u.username u.firstName
        (some (pyStrip text)) none none none none db)
      exact stepSafe_create _ _ _ _ _ _ _ _ _ (Or.inl rfl)
    · rw [if_neg h1]
      have hsafe1 : StepSafe db (create_participant u.id (some (u.username.getD ""))
          (some (u.firstName.getD "")) (some (pyStrip text)) none none none none db) :=
        stepSafe_create _ _ _ _ _ _ _ _ _ (Or.inl rfl)
      by_cases h2 : (stage == "ask_gender") = true
      · rw [if_pos h2]
        show StepSafe db (create_participant u.id (some (u.username.getD ""))
          (some (u.firstName.getD "")) (some (pyStrip text)) none none none none db)
        exact hsafe1
      · rw [if_neg h2]
        by_cases h3 : (stage == "ask_age") = true
        · rw [if_pos h3]
          cases hap : ageParse (pyStrip text) with
          | none =>
            show StepSafe db (create_participant u.id (some (u.username.getD ""))
              (some (u.firstName.getD "")) (some (pyStrip text)) none none none none db)
            exact hsafe1
          | some age =>
            exact stepSafe_trans hsafe1 (ht_age_ok_stepSafe u cond shuffle s _ age hsh)
        · rw [if_neg h3]
          show StepSafe db (ht_video_block u stage (pyStrip text) s
            (create_participant u.id (some (u.username.getD ""))
              (some (u.firstName.getD "")) (some (pyStrip text)) none none none none db)).2.1
          exact stepSafe_trans hsafe1 (ht_video_block_stepSafe u stage (pyStrip text) s _)

/-- Every processed event is safe for the progress invariant. -/
lemma sysStep_stepSafe {db db' : Db} (h : SysStep db db') : StepSafe db db' := by
  cases h with
  | start u s => exact start_stepSafe u s db
  | text u text0 cond shuffle s hsh => exact handle_text_stepSafe u text0 cond shuffle s db hsh
  | gender u data s => exact handle_gender_choice_stepSafe u data s db
  | likert u score s => exact handle_likert_stepSafe u score s db

/-- C2: a participant record is created at position 0 with the completed
flag unset, and across every operation the system performs (any processed
inbound event) the position never decreases, never exceeds the total video
count, and a set completed flag forces position = total. -/
theorem C2_progress_invariant :
    (∀ uid tgU fN pn g a c t db, get_participant db uid = none →
      ∃ p, get_participant (create_participant uid tgU fN pn g a c t db) uid = some p ∧
        p.currentVideoIdx = 0 ∧ p.completed = false) ∧
    (∀ db db', SysStep db db' → DbInv db →
      DbInv db' ∧
      ∀ uid p, get_participant db uid = some p →
        ∃ p', get_participant db' uid = some p' ∧
          p.currentVideoIdx ≤ p'.currentVideoIdx ∧
          p'.currentVideoIdx ≤ p'.totalVideos ∧
          (p'.completed = true → p'.currentVideoIdx = p'.totalVideos)) := by
  constructor
  · intro uid tgU fN pn g a c t db hnone
    rw [get_participant_create_self, hnone]
    exact ⟨_, rfl, rfl, rfl⟩
  · intro db db' hstep hInv
    obtain ⟨hInv', hmono⟩ := (sysStep_stepSafe hstep).1 hInv
    refine ⟨hInv', fun uid p hp => ?_⟩
    obtain ⟨p', hp', hle, _⟩ := hmono uid p hp
    obtain ⟨_, hb, hcb⟩ := hInv'.1 uid p' hp'
    exact ⟨p', hp', hle, hb, hcb⟩

/-- Models `DbInv` for a store holding one participant row and no sequence rows. -/
lemma dbInv_single (p : Participant) (hok : PartOk p) (us : List UserRow)
    (ans : List AnsRow) : DbInv ⟨us, [p], [], ans⟩ := by
  constructor
  · intro uid q hq
    unfold get_participant at hq
    simp only [List.find?_cons, List.find?_nil] at hq
    cases hpa : (p.userId == uid) with
    | true =>
      rw [hpa] at hq
      injection hq with hq
      subst hq
      exact hok
    | false =>
      rw [hpa] at hq
      cases hq
  · intro v hv
    cases hv

/-- Witness for C2: creation on an empty store, then one likert event on a
one-participant store satisfying the invariant. -/
theorem C2_progress_invariant_witness :
    (∃ p, get_participant
        (create_participant 1 (some "alex") (some "Alex") none none none none none
          (⟨[], [], [], []⟩ : Db)) 1 = some p ∧
      p.currentVideoIdx = 0 ∧ p.completed = false) ∧
    (DbInv (handle_likert bugUser 7 sessionClear bugDb).db ∧
      ∀ uid p, get_participant bugDb uid = some p →
        ∃ p', get_participant (handle_likert bugUser 7 sessionClear bugDb).db uid = some p' ∧
          p.currentVideoIdx ≤ p'.currentVideoIdx ∧
          p'.currentVideoIdx ≤ p'.totalVideos ∧
          (p'.completed = true → p'.currentVideoIdx = p'.totalVideos)) :=
  ⟨C2_progress_invariant.1 1 (some "alex") (some "Alex") none none none none none
      ⟨[], [], [], []⟩ (by decide),
   C2_progress_invariant.2 bugDb (handle_likert bugUser 7 sessionClear bugDb).db
      (SysStep.likert bugUser 7 sessionClear)
      (dbInv_single bugParticipant ⟨rfl, by decide, fun h => absurd h (by decide)⟩ _ _)⟩

lemma get_answer_congr {db db' : Db} (h : db'.answers = db.answers)
    (uid pos : Nat) : get_answer db' uid pos = get_answer db uid pos := by
  unfold get_answer
  rw [h]

lemma uaApply_rating (sc fid : String) (score : Int) (a : AnsRow) :
    (uaApply sc fid (FieldWrite.scenario_rating score) a).scenarioRating = some score := rfl

/-- Along any sequence of processed events, a completed participant stays
completed. -/
lemma reach_keepDone {d d' : Db} (h : Relation.ReflTransGen SysStep d d') :
    KeepDone d d' := by
  induction h with
  | refl => exact (stepSafe_refl _).2
  | tail hab hstep ih =>
    intro uid p hp hc
    obtain ⟨q, hq, hqc⟩ := ih uid p hp hc
    exact (sysStep_stepSafe hstep).2 uid q hq hqc

/-- C3: a valid final rating stores the rating and then sets
position := total and completed := true in one committed progress write —
no committed state shows one without the other — after which resolution is
Finished forever; a valid non-final rating advances the position by exactly
one and leaves completed unset. -/
theorem C3_final_rating_completion (u : TgUser) (score : Int) (s : Session)
    (db : Db) (p : Participant) (v : VideoInfo)
    (hp : get_participant db u.id = some p)
    (hcf : p.completed = false)
    (hv : get_video_by_position db u.id p.currentVideoIdx = some v)
    (hs1 : 1 ≤ score) (hs10 : score ≤ 10) :
    (p.currentVideoIdx + 1 = p.totalVideos →
      (∃ row, get_answer (handle_likert u score s db).db u.id p.currentVideoIdx = some row ∧
        row.scenarioRating = some score) ∧
      (∃ p', get_participant (handle_likert u score s db).db u.id = some p' ∧
        p'.completed = true ∧ p'.currentVideoIdx = p.totalVideos) ∧
      (handle_likert u score s db).trace =
        [upsert_answer_field u.id p.currentVideoIdx v.scenario v.fileId
          (FieldWrite.scenario_rating score) db,
         (handle_likert u score s db).db] ∧
      (∀ d ∈ db :: (handle_likert u score s db).trace, ∀ q,
        get_participant d u.id = some q →
        (q.completed = true ↔ q.currentVideoIdx = p.totalVideos)) ∧
      (∀ db'', Relation.ReflTransGen SysStep (handle_likert u score s db).db db'' →
        determine_next_stage db'' u.id = Stage.finished)) ∧
    (p.currentVideoIdx + 1 < p.totalVideos →
      ∃ p', get_participant (handle_likert u score s db).db u.id = some p' ∧
        p'.currentVideoIdx = p.currentVideoIdx + 1 ∧ p'.completed = false) := by
  have hbne : ¬(score < 1 || 10 < score) = true := by
    simp only [Bool.or_eq_true, decide_eq_true_eq, not_or, not_lt]
    exact ⟨hs1, hs10⟩
  have hcne : ¬p.completed = true := by
    rw [hcf]
    simp
  have hup := upsert_answer_others u.id p.currentVideoIdx v.scenario v.fileId
    (FieldWrite.scenario_rating score) db
  have hgp1 : get_participant (upsert_answer_field u.id p.currentVideoIdx
      v.scenario v.fileId (FieldWrite.scenario_rating score) db) u.id = some p := by
    rw [get_participant_congr hup.2.1]
    exact hp
  constructor
  · intro hlast
    have hle : p.totalVideos ≤ p.currentVideoIdx + 1 := le_of_eq hlast.symm
    have hgp2 := get_participant_upp_self u.id (p.currentVideoIdx + 1) (some true)
      (upsert_answer_field u.id p.currentVideoIdx v.scenario v.fileId
        (FieldWrite.scenario_rating score) db) p hgp1
    have hred : handle_likert u score s db =
        ⟨sessionClear,
         update_participant_progress u.id (some (p.currentVideoIdx + 1)) (some true)
           (upsert_answer_field u.id p.currentVideoIdx v.scenario v.fileId
             (FieldWrite.scenario_rating score) db),
         [Reply.finalMessage (finalName
           { p with currentVideoIdx := p.currentVideoIdx + 1,
                    completed := (some true).getD p.completed })],
         [upsert_answer_field u.id p.currentVideoIdx v.scenario v.fileId
            (FieldWrite.scenario_rating score) db,
          update_participant_progress u.id (some (p.currentVideoIdx + 1)) (some true)
            (upsert_answer_field u.id p.currentVideoIdx v.scenario v.fileId
              (FieldWrite.scenario_rating score) db)]⟩ := by
      unfold handle_likert
      rw [if_neg hbne]
      simp only [hp]
      rw [if_neg hcne]
      simp only [hv]
      rw [if_pos hle]
      simp only [hgp2]
    rw [hred]
    refine ⟨?_, ?_, rfl, ?_, ?_⟩
    · refine ⟨uaApply v.scenario v.fileId (FieldWrite.scenario_rating score)
          ((get_answer db u.id p.currentVideoIdx).getD
            (freshAns u.id p.currentVideoIdx v.scenario v.fileId)), ?_, ?_⟩
      · show get_answer (update_participant_progress u.id (some (p.currentVideoIdx + 1))
            (some true) (upsert_answer_field u.id p.currentVideoIdx v.scenario v.fileId
              (FieldWrite.scenario_rating score) db)) u.id p.currentVideoIdx = _
        rw [get_answer_congr (upp_others u.id (some (p.currentVideoIdx + 1))
          (some true) _).2.2, get_answer_upsert_self]
      · exact uaApply_rating _ _ _ _
    · refine ⟨_, hgp2, rfl, ?_⟩
      show p.currentVideoIdx + 1 = p.totalVideos
      exact hlast
    · intro d hd q hq
      have hne : p.currentVideoIdx ≠ p.totalVideos := by omega
      rcases List.mem_cons.1 hd with hdb | hd
      · subst hdb
        rw [hp] at hq
        injection hq with hq
        subst hq
        constructor
        · intro hcm
          rw [hcf] at hcm
          cases hcm
        · intro hix
          exact absurd hix hne
      · rcases List.mem_cons.1 hd with hd1 | hd2
        · subst hd1
          rw [hgp1] at hq
          injection hq with hq
          subst hq
          constructor
          · intro hcm
            rw [hcf] at hcm
            cases hcm
          · intro hix
            exact absurd hix hne
        · have hd2' : d = update_participant_progress u.id (some (p.currentVideoIdx + 1))
              (some true) (upsert_answer_field u.id p.currentVideoIdx v.scenario v.fileId
                (FieldWrite.scenario_rating score) db) := by
            simpa using hd2
          subst hd2'
          rw [hgp2] at hq
          injection hq with hq
          subst hq
          constructor
          · intro _
            exact hlast
          · intro _
            rfl
    · intro db'' hreach
      have hdone : ∃ p'', get_participant db'' u.id = some p'' ∧ p''.completed = true := by
        refine reach_keepDone hreach u.id _ hgp2 rfl
      obtain ⟨p'', h'', hc''⟩ := hdone
      unfold determine_next_stage
      rw [h'']
      simp [hc'']
  · intro hnl
    have hngt : ¬p.totalVideos ≤ p.currentVideoIdx + 1 := by omega
    have hgp2 := get_participant_upp_self u.id (p.currentVideoIdx + 1) none
      (upsert_answer_field u.id p.currentVideoIdx v.scenario v.fileId
        (FieldWrite.scenario_rating score) db) p hgp1
    have hdb : (handle_likert u score s db).db =
        update_participant_progress u.id (some (p.currentVideoIdx + 1)) none
          (upsert_answer_field u.id p.currentVideoIdx v.scenario v.fileId
            (FieldWrite.scenario_rating score) db) := by
      unfold handle_likert
      rw [if_neg hbne]
      simp only [hp]
      rw [if_neg hcne]
      simp only [hv]
      rw [if_neg hngt]
    rw [hdb]
    refine ⟨_, hgp2, rfl, ?_⟩
    show (none : Option Bool).getD p.completed = false
    rw [Option.getD_none]
    exact hcf

/-- Scenario C concrete state: participant at position 3 of 4 with all four
fields of positions 0..2 resolved and position 3 lacking only the rating. -/
def c3P : Participant :=
  { bugParticipant with gender := some "Женский", age := some 29,
                        condition := some "без", currentVideoIdx := 3 }
def c3Db : Db :=
  ⟨[⟨1, "alex", "Alex"⟩], [c3P],
   [⟨1, 3, "без", "Шахматы", "fid3"⟩],
   [⟨1, 3, "Шахматы", "fid3", some "опис", some "быстро", some "уверенно", none⟩]⟩

/-- Witness for C3: the final rating 7 at position 3 of 4. -/
theorem C3_final_rating_completion_witness :
    (∃ row, get_answer (handle_likert bugUser 7 sessionClear c3Db).db bugUser.id
        c3P.currentVideoIdx = some row ∧ row.scenarioRating = some 7) ∧
    (∃ p', get_participant (handle_likert bugUser 7 sessionClear c3Db).db bugUser.id =
        some p' ∧ p'.completed = true ∧ p'.currentVideoIdx = c3P.totalVideos) ∧
    (handle_likert bugUser 7 sessionClear c3Db).trace =
      [upsert_answer_field bugUser.id c3P.currentVideoIdx "Шахматы" "fid3"
        (FieldWrite.scenario_rating 7) c3Db,
       (handle_likert bugUser 7 sessionClear c3Db).db] ∧
    (∀ d ∈ c3Db :: (handle_likert bugUser 7 sessionClear c3Db).trace, ∀ q,
      get_participant d bugUser.id = some q →
      (q.completed = true ↔ q.currentVideoIdx = c3P.totalVideos)) ∧
    (∀ db'', Relation.ReflTransGen SysStep (handle_likert bugUser 7 sessionClear c3Db).db db'' →
      determine_next_stage db'' bugUser.id = Stage.finished) :=
  (C3_final_rating_completion bugUser 7 sessionClear c3Db c3P
    ⟨"без", "Шахматы", "fid3"⟩ (by decide) (by decide) (by decide)
    (by decide) (by decide)).1 (by decide)
